import Mathlib

/-!
Verification development for the mpd-parser-api repository: a shallow
embedding of the manifest-to-segment-timeline engine (timeline expansion,
URI templates, SegmentTemplate resolution, TimelineSegmentIndex,
fixed-duration generation, WebM cues parsing, DataViewReader) together
with theorems settling the specification's claims.

Times are modelled as exact rationals; the JavaScript source performs the
same arithmetic on IEEE doubles, but every property proved here concerns
equalities and comparisons between values computed by a single division of
equal integer operands, which agree between the two arithmetics.
-/

set_option maxHeartbeats 1000000

/-- A rational extended with a point at infinity, modelling the JavaScript
`Infinity` value used for unbounded period durations / period ends. -/
inductive QInf where
  | fin (q : ℚ) : QInf
  | inf : QInf
deriving DecidableEq, Inhabited

namespace QInf

/-- `Math.min(a, b)` where `a` is finite and `b` may be `Infinity`. -/
def minQ (a : ℚ) : QInf → ℚ
  | .fin q => min a q
  | .inf => a

/-- `t >= b` for possibly-infinite `b` (false when `b` is `Infinity`). -/
def geB (t : ℚ) : QInf → Bool
  | .fin q => decide (t ≥ q)
  | .inf => false

/-- `0 < b` for possibly-infinite `b`. -/
def posB : QInf → Bool
  | .fin q => decide (0 < q)
  | .inf => true

end QInf

/-- One expanded timeline entry, `shaka.media.PresentationTimeline.TimeRange`:
`start`/`end` in seconds, `unscaledStart` in timescale units, a partial
segment count and the absolute segment position. -/
structure TimeRange where
  start : ℚ
  end_ : ℚ
  unscaledStart : ℤ
  partialSegments : ℤ
  segmentPosition : ℤ
deriving DecidableEq, Inhabited

/-- One `S` element of a `SegmentTimeline`, after attribute parsing:
`t`/`d` parsed with `parseNonNegativeInt` (absent or invalid ↦ none),
`r`/`k` parsed with `parseInt`. -/
structure SEntry where
  t : Option ℕ
  d : Option ℕ
  r : Option ℤ
  k : Option ℤ
deriving DecidableEq

namespace MpdUtils

/-- `Math.ceil(a / b)` for an integer `a` and positive integer `b`. -/
def ceilDiv (a : ℤ) (b : ℕ) : ℤ := ⌈(a : ℚ) / (b : ℚ)⌉

/-- Mutation `timeline[timeline.length - 1].end = v` from `createTimeline`. -/
def setLastEnd : List TimeRange → ℚ → List TimeRange
  | [], _ => []
  | [x], v => [{ x with end_ := v }]
  | x :: y :: xs, v => x :: setLastEnd (y :: xs) v

/-- The inner `for (let j = 0; j <= repeat; ++j)` loop of `createTimeline`:
pushes `cnt` consecutive ranges of duration `d` starting at unscaled time
`startTime`, returning the grown timeline and the final unscaled time. -/
def pushRepeats (cnt : ℕ) (startTime : ℤ) (d : ℕ) (ts : ℕ)
    (partialSegments : ℤ) (startNumber : ℤ) (acc : List TimeRange) :
    List TimeRange × ℤ :=
  match cnt with
  | 0 => (acc, startTime)
  | n + 1 =>
    let endTime := startTime + d
    let item : TimeRange :=
      { start := (startTime : ℚ) / (ts : ℚ)
        end_ := (endTime : ℚ) / (ts : ℚ)
        unscaledStart := startTime
        partialSegments := partialSegments
        segmentPosition := (acc.length : ℤ) + startNumber }
    pushRepeats n endTime d ts partialSegments startNumber (acc ++ [item])

/-- Resolution of a negative `r` attribute in `createTimeline`: repeat up
to the next entry's `t` (requiring a valid, later start time), or — for
the last entry — up to the period's duration (requiring a finite duration
not already exceeded); `none` models the source's early
`return timeline`.  A non-negative `r` passes through. -/
def resolveRepeat (ts : ℕ) (periodDuration : QInf) (d : ℕ) (startTime : ℤ)
    (repeat0 : ℤ) (next : Option SEntry) : Option ℤ :=
  if repeat0 < 0 then
    match next with
    | some nx =>
      match nx.t with
      | none => none
      | some nst =>
        if startTime ≥ (nst : ℤ) then none
        else some (ceilDiv ((nst : ℤ) - startTime) d - 1)
    | none =>
      match periodDuration with
      | .inf => none
      | .fin pdq =>
        if (startTime : ℚ) / (ts : ℚ) ≥ pdq then none
        else some (⌈(pdq * (ts : ℚ) - (startTime : ℚ)) / (d : ℚ)⌉ - 1)
  else some repeat0

/-- Main loop of `MpdUtils.createTimeline` over the `S` elements, carrying
`lastEndTime` (unscaled) and the timeline built so far.  Every early
`return timeline` of the source returns the accumulator. -/
def createTimelineLoop (ts : ℕ) (uPTO : ℤ) (periodDuration : QInf)
    (startNumber : ℤ) : List SEntry → ℤ → List TimeRange → List TimeRange
  | [], _, acc => acc
  | tp :: rest, lastEndTime, acc =>
    let next := rest.head?
    let partialSegments : ℤ := tp.k.getD 0
    -- t is shifted by -unscaledPresentationTimeOffset when present
    let t : Option ℤ := tp.t.map (fun x => (x : ℤ) - uPTO)
    match tp.d with
    | none => acc
    | some d =>
      if d = 0 then acc
      else
        let startTime : ℤ := t.getD lastEndTime
        let repeat0 : ℤ := tp.r.getD 0
        match resolveRepeat ts periodDuration d startTime repeat0 next with
        | none => acc
        | some rep =>
          let acc1 :=
            if acc ≠ [] ∧ startTime ≠ lastEndTime then
              setLastEnd acc ((startTime : ℚ) / (ts : ℚ))
            else acc
          let res := pushRepeats (rep + 1).toNat startTime d ts
            partialSegments startNumber acc1
          let lastEnd' := if (rep + 1).toNat = 0 then lastEndTime else res.2
          createTimelineLoop ts uPTO periodDuration startNumber rest
            lastEnd' res.1

/-- `MpdUtils.createTimeline`: expands a `SegmentTimeline` (list of parsed
`S` entries) into an array of `TimeRange`s, in seconds. -/
def createTimeline (timePoints : List SEntry) (ts : ℕ) (uPTO : ℤ)
    (periodDuration : QInf) (startNumber : ℤ) : List TimeRange :=
  createTimelineLoop ts uPTO periodDuration startNumber timePoints (-uPTO) []

end MpdUtils

/-! ## URI template engine (`MpdUtils.fillUriTemplate`) -/

/-- The five identifiers recognized by the SegmentTemplate URI grammar. -/
inductive TplIdent where
  | representationID | number | subNumber | bandwidth | time
deriving DecidableEq

/-- A substitution value: a string (RepresentationID) or an integer. -/
inductive TplValue where
  | str (s : String)
  | int (v : ℤ)
deriving DecidableEq

namespace MpdUtils

/-- `Math.round` (ties toward positive infinity). -/
def jsRound (q : ℚ) : ℤ := ⌊q + 1/2⌋

/-- `a || b` on numbers (zero is falsy). -/
def jsOr (a b : ℕ) : ℕ := if a = 0 then b else a

/-- Digits of a parsed-integer string, base 10. -/
def digitsToNat (ds : List Char) : ℕ :=
  ds.foldl (fun a c => a * 10 + (c.toNat - '0'.toNat)) 0

/-- `value.toString(radix)` for a signed integer (lowercase digits). -/
def intToStringBase (b : ℕ) (v : ℤ) : List Char :=
  if v < 0 then '-' :: Nat.toDigits b (-v).toNat else Nat.toDigits b v.toNat

/-- Drops `p` from the front of `cs`, or fails. -/
def dropPfx : List Char → List Char → Option (List Char)
  | [], cs => some cs
  | _, [] => none
  | p :: ps, c :: cs => if p = c then dropPfx ps cs else none

/-- The identifier alternation
`(RepresentationID|Number|SubNumber|Bandwidth|Time)` (first letters are
distinct, so at most one branch matches). -/
def tryIdent (cs : List Char) : Option (TplIdent × List Char) :=
  ((dropPfx "RepresentationID".data cs).map ((TplIdent.representationID, ·))) <|>
  ((dropPfx "Number".data cs).map ((TplIdent.number, ·))) <|>
  ((dropPfx "SubNumber".data cs).map ((TplIdent.subNumber, ·))) <|>
  ((dropPfx "Bandwidth".data cs).map ((TplIdent.bandwidth, ·))) <|>
  ((dropPfx "Time".data cs).map ((TplIdent.time, ·)))

/-- The format group `%0([0-9]+)([diouxX])`. -/
def tryFmt (cs : List Char) : Option (List Char × Char × List Char) :=
  match cs with
  | '%' :: '0' :: rest =>
    let ds := rest.takeWhile (fun c => c.isDigit)
    if ds = [] then none
    else
      match rest.drop ds.length with
      | f :: rest2 =>
        if f ∈ ['d', 'i', 'u', 'o', 'x', 'X'] then some (ds, f, rest2) else none
      | [] => none
  | _ => none

/-- The closing `$` of a token. -/
def tryClose : List Char → Option (List Char)
  | '$' :: r => some r
  | _ => none

/-- Optional format group followed by the closing `$`, with the regex
backtracking order (format present first, then skipped). -/
def tryFmtClose (cs : List Char) :
    Option (Option (List Char × Char) × List Char) :=
  match tryFmt cs with
  | some (w, f, r1) =>
    match tryClose r1 with
    | some r2 => some (some (w, f), r2)
    | none => (tryClose cs).map ((none, ·))
  | none => (tryClose cs).map ((none, ·))

/-- Matches one template token after its opening `$`, in the regex
backtracking order: identifier present first, then skipped. -/
def matchToken (cs : List Char) :
    Option (Option TplIdent × Option (List Char × Char) × List Char) :=
  match tryIdent cs with
  | some (id, r1) =>
    match tryFmtClose r1 with
    | some (fmtOpt, r2) => some (some id, fmtOpt, r2)
    | none => (tryFmtClose cs).map (fun p => (none, p.1, p.2))
  | none => (tryFmtClose cs).map (fun p => (none, p.1, p.2))

/-- The literal characters of an identifier. -/
def identChars : TplIdent → List Char
  | .representationID => "RepresentationID".data
  | .number => "Number".data
  | .subNumber => "SubNumber".data
  | .bandwidth => "Bandwidth".data
  | .time => "Time".data

/-- Reconstructs the full matched token text `$...$`. -/
def tokenText (idOpt : Option TplIdent) (fmtOpt : Option (List Char × Char)) :
    List Char :=
  '$' :: (match idOpt with | some id => identChars id | none => []) ++
    (match fmtOpt with | some (w, f) => '%' :: '0' :: w ++ [f] | none => []) ++
    ['$']

/-- `value.toString()` / `value.toString(radix)` per format specifier
(strings ignore the radix, as in JavaScript). -/
def toValueString (v : TplValue) (fmt : Option Char) : List Char :=
  match v with
  | .str s => s.data
  | .int n =>
    match fmt with
    | none | some 'd' | some 'i' | some 'u' => intToStringBase 10 n
    | some 'o' => intToStringBase 8 n
    | some 'x' => intToStringBase 16 n
    | some 'X' => (intToStringBase 16 n).map Char.toUpper
    | some _ => intToStringBase 10 n

/-- The replacement computed for one matched token; `Except` models the
`assert(value !== undefined)` failure for a bare format token. -/
def processMatch (repId : Option String) (number subNumber bandwidth : Option ℤ)
    (time : Option ℚ) (idOpt : Option TplIdent)
    (fmtOpt : Option (List Char × Char)) : Except String (List Char) :=
  if idOpt = none ∧ fmtOpt = none then .ok ['$']
  else
    match idOpt with
    | none => .error "AssertionError: Unrecognized identifier"
    | some id =>
      let value : Option TplValue :=
        match id with
        | .representationID => repId.map .str
        | .number => number.map .int
        | .subNumber => subNumber.map .int
        | .bandwidth => bandwidth.map .int
        | .time => time.map (fun q => .int (jsRound q))
      match value with
      | none => .ok (tokenText idOpt fmtOpt)
      | some v =>
        let widthDigits : Option (List Char) :=
          match fmtOpt with
          | some (w, _) => if id = .representationID then none else some w
          | none => none
        let valueString := toValueString v (fmtOpt.map (·.2))
        let width := match widthDigits with
          | some ds => jsOr (digitsToNat ds) 1
          | none => 1
        .ok (List.replicate (width - valueString.length) '0' ++ valueString)

/-- Left-to-right, non-overlapping scan of the template, replacing each
matched token; characters outside matches are copied.  `fuel` bounds the
recursion; each step consumes at least one character, so
`fuel = cs.length` never runs out. -/
def fillScan (repId : Option String) (number subNumber bandwidth : Option ℤ)
    (time : Option ℚ) : ℕ → List Char → Except String (List Char)
  | 0, cs => .ok cs
  | fuel + 1, cs =>
    match cs with
    | [] => .ok []
    | c :: rest =>
      if c = '$' then
        match matchToken rest with
        | some (idOpt, fmtOpt, r2) => do
          let rep ← processMatch repId number subNumber bandwidth time
            idOpt fmtOpt
          let tailRes ← fillScan repId number subNumber bandwidth time fuel r2
          .ok (rep ++ tailRes)
        | none => do
          let tailRes ← fillScan repId number subNumber bandwidth time fuel rest
          .ok (c :: tailRes)
      else do
        let tailRes ← fillScan repId number subNumber bandwidth time fuel rest
        .ok (c :: tailRes)

/-- `MpdUtils.fillUriTemplate`: fills a SegmentTemplate URI template.
An `.error` result models a thrown assertion failure. -/
def fillUriTemplate (uriTemplate : String) (representationId : Option String)
    (number subNumber bandwidth : Option ℤ) (time : Option ℚ) :
    Except String String :=
  (fillScan representationId number subNumber bandwidth time
    uriTemplate.data.length uriTemplate.data).map (⟨·⟩)

end MpdUtils

/-! ## SegmentTemplate info and its validation -/

/-- `shaka.dash.SegmentTemplate.SegmentTemplateInfo`. -/
structure SegmentTemplateInfo where
  timescale : ℚ
  segmentDuration : Option ℚ
  startNumber : ℤ
  scaledPresentationTimeOffset : ℚ
  unscaledPresentationTimeOffset : ℤ
  timeline : Option (List TimeRange)
  mediaTemplate : Option String
  indexTemplate : Option String
deriving DecidableEq

/-- JavaScript truthiness of a nullable string (absent and `""` are falsy). -/
def jsTruthyStr : Option String → Bool
  | some s => decide (s ≠ "")
  | none => false

/-- JavaScript truthiness of a nullable number (absent and `0` are falsy). -/
def jsTruthyNum : Option ℚ → Bool
  | some q => decide (q ≠ 0)
  | none => false

namespace SegmentTemplate

/-- `SegmentTemplate.checkSegmentTemplateInfo_`: validates an info object,
resolving duplicate segment-information sources by precedence
(index template > timeline > duration) and throwing
`DASH_NO_SEGMENT_INFO` when no source, or no media/index template,
is available.  Returns the (possibly nulled-out) info. -/
def checkSegmentTemplateInfo (info : SegmentTemplateInfo) :
    Except String SegmentTemplateInfo :=
  let n := (if jsTruthyStr info.indexTemplate then 1 else 0) +
    (if info.timeline.isSome then 1 else 0) +
    (if jsTruthyNum info.segmentDuration then 1 else 0)
  if n = 0 then .error "DASH_NO_SEGMENT_INFO"
  else
    let info' :=
      if n ≠ 1 then
        if jsTruthyStr info.indexTemplate then
          { info with timeline := none, segmentDuration := none }
        else
          { info with segmentDuration := none }
      else info
    if ¬ jsTruthyStr info'.indexTemplate ∧ ¬ jsTruthyStr info'.mediaTemplate
    then .error "DASH_NO_SEGMENT_INFO"
    else .ok info'

end SegmentTemplate

/-! ## SegmentReference model

URI-resolution closures, init-segment references and AES key material are
identity data not modelled here; a reference is its observable time/byte
content. -/

/-- A partial (low-latency) sub-segment reference, including the
"independent" decode flag (`markAsNonIndependent` clears it). -/
structure PartialRef where
  startTime : ℚ
  endTime : ℚ
  timestampOffset : ℚ
  appendWindowStart : ℚ
  appendWindowEnd : QInf
  independent : Bool
deriving DecidableEq

/-- `shaka.media.SegmentReference` (observable fields). -/
structure SegRef where
  startTime : ℚ
  endTime : ℚ
  trueEndTime : ℚ
  startByte : ℤ
  endByte : Option ℤ
  timestampOffset : ℚ
  appendWindowStart : ℚ
  appendWindowEnd : QInf
  partialReferences : List PartialRef
  allPartialSegments : Bool
deriving DecidableEq, Inhabited

/-! ## TimelineSegmentIndex -/

/-- The state of a `TimelineSegmentIndex`: the template info (null once
released), period bounds, the eviction counter and the lazily-materialized
reference cache (a JavaScript sparse array: absent slots are `none`). -/
structure TimelineSegmentIndex where
  templateInfo_ : Option SegmentTemplateInfo
  periodStart_ : ℚ
  periodEnd_ : QInf
  numEvicted_ : ℕ
  references : List (Option SegRef)
  segmentSequenceCadence_ : ℤ
deriving DecidableEq

namespace TimelineSegmentIndex

/-- The timeline of the current template info (construction sites guarantee
the timeline-path info carries a timeline, so the `none` default is never
reached on reachable states). -/
def tsiTimeline (ti : SegmentTemplateInfo) : List TimeRange :=
  ti.timeline.getD []

/-- `getNumReferences()`. -/
def getNumReferences (s : TimelineSegmentIndex) : ℕ :=
  match s.templateInfo_ with
  | some ti => (tsiTimeline ti).length
  | none => 0

/-- `release()`: `super.release()` (base class `SegmentIndex`, code not in
this repository) plus clearing the template info.  Only the cleared
template info is observable through the operations modelled here. -/
def release (s : TimelineSegmentIndex) : TimelineSegmentIndex :=
  { s with templateInfo_ := none }

/-- The number of leading timeline entries `evict(time)` drops: the scan
stops at the first entry whose end (plus period start) exceeds `time`. -/
def evictCount (s : TimelineSegmentIndex) (time : ℚ) : ℕ :=
  match s.templateInfo_ with
  | some ti =>
    ((tsiTimeline ti).takeWhile
      (fun r => decide (r.end_ + s.periodStart_ ≤ time))).length
  | none => 0

/-- `evict(time)`: drops the leading evictable timeline entries, advances
`numEvicted_`, drops the same count from the reference cache only when the
cache extends that far, and releases when no entries remain. -/
def evict (s : TimelineSegmentIndex) (time : ℚ) : TimelineSegmentIndex :=
  match s.templateInfo_ with
  | none => s
  | some ti =>
    let timeline := tsiTimeline ti
    let numToEvict := evictCount s time
    if numToEvict > 0 then
      let s1 : TimelineSegmentIndex :=
        { s with
          templateInfo_ := some { ti with timeline := some (timeline.drop numToEvict) }
          references :=
            if s.references.length ≥ numToEvict then
              s.references.drop numToEvict
            else s.references
          numEvicted_ := s.numEvicted_ + numToEvict }
      if getNumReferences s1 = 0 then release s1 else s1
    else s

/-- `isBeforeFirstEntry(time)`. -/
def isBeforeFirstEntry (s : TimelineSegmentIndex) (time : ℚ) : Bool :=
  match s.templateInfo_ with
  | some ti =>
    match tsiTimeline ti with
    | [] => false
    | r :: _ => decide (time < r.start + s.periodStart_)
  | none => false

/-- The scan of `find(time)` over the timeline: entry `i`'s window ends at
the next entry's start, or at the period end (the entry's own end for an
infinite period) for the last entry. -/
def findLoop (periodStart : ℚ) (periodEnd : QInf) (numEvicted : ℕ) (time : ℚ) :
    List TimeRange → ℕ → Option ℕ
  | [], _ => none
  | r :: rest, i =>
    let start := r.start + periodStart
    let endv : ℚ :=
      match rest.head? with
      | some nx => nx.start + periodStart
      | none =>
        match periodEnd with
        | .inf => r.end_ + periodStart
        | .fin q => q
    if time ≥ start ∧ time < endv then some (i + numEvicted)
    else findLoop periodStart periodEnd numEvicted time rest (i + 1)

/-- `find(time)`. -/
def find (s : TimelineSegmentIndex) (time : ℚ) : Option ℕ :=
  if isBeforeFirstEntry s time then some s.numEvicted_
  else
    match s.templateInfo_ with
    | none => none
    | some ti =>
      if time < s.periodStart_ ∨ QInf.geB time s.periodEnd_ then none
      else findLoop s.periodStart_ s.periodEnd_ s.numEvicted_ time
        (tsiTimeline ti) 0

/-- Sparse-array assignment `this.references[i] = v`: pads with absent
slots when assigning beyond the current length. -/
def listSetPad (l : List (Option SegRef)) (i : ℕ) (v : Option SegRef) :
    List (Option SegRef) :=
  if i < l.length then l.set i v
  else l ++ List.replicate (i - l.length) none ++ [v]

/-- Builds the `SegmentReference` that `get` materializes for the
timeline entry at corrected position `c`. -/
def buildRef (s : TimelineSegmentIndex) (ti : SegmentTemplateInfo) (c : ℕ) :
    SegRef :=
  let range := (tsiTimeline ti).getD c default
  let timestampOffset := s.periodStart_ - ti.scaledPresentationTimeOffset
  let trueSegmentEnd := s.periodStart_ + range.end_
  let segmentEnd : ℚ :=
    if c = getNumReferences s - 1 ∧ s.periodEnd_ ≠ .inf then
      match s.periodEnd_ with
      | .fin q => q
      | .inf => trueSegmentEnd
    else trueSegmentEnd
  let partialDuration := (range.end_ - range.start) / (range.partialSegments : ℚ)
  let partials : List PartialRef :=
    (List.range range.partialSegments.toNat).map (fun (i : ℕ) =>
      let start := range.start + partialDuration * (i : ℚ)
      let end_ := start + partialDuration
      { startTime := s.periodStart_ + start
        endTime := s.periodStart_ + end_
        timestampOffset := timestampOffset
        appendWindowStart := s.periodStart_
        appendWindowEnd := s.periodEnd_
        independent :=
          if s.segmentSequenceCadence_ = 0 then decide (i = 0)
          else decide ((i : ℤ) % s.segmentSequenceCadence_ = 0) })
  { startTime := s.periodStart_ + range.start
    endTime := segmentEnd
    trueEndTime := trueSegmentEnd
    startByte := 0
    endByte := none
    timestampOffset := timestampOffset
    appendWindowStart := s.periodStart_
    appendWindowEnd := s.periodEnd_
    partialReferences := partials
    allPartialSegments := decide (range.partialSegments > 0) }

/-- `get(position)`: returns the cached reference for the corrected
position, or lazily builds and caches it; out-of-range positions (or a
released index) yield nothing. -/
def get (s : TimelineSegmentIndex) (position : ℕ) :
    Option SegRef × TimelineSegmentIndex :=
  match s.templateInfo_ with
  | none => (none, s)
  | some ti =>
    if position < s.numEvicted_ then (none, s)
    else
      let c := position - s.numEvicted_
      if c ≥ getNumReferences s then (none, s)
      else
        match s.references.getD c none with
        | some r => (some r, s)
        | none =>
          let ref := buildRef s ti c
          (some ref, { s with references := listSetPad s.references c (some ref) })

end TimelineSegmentIndex

/-! ## Fixed-duration segment generation -/

namespace SegmentTemplate

/-- `computeAvailablePositionRange` inside
`generateSegmentIndexFromDuration_`: clips the availability window
(`availStart`/`availEnd` are the presentation timeline's availability
bounds, external collaborators) to the period and converts it to an
inclusive presentation position range. -/
def computeAvailablePositionRange (availStart availEnd periodStart : ℚ)
    (periodEnd : QInf) (segmentDuration : ℚ) (startNumber : ℤ) : ℤ × ℤ :=
  let a0 := max availStart periodStart
  let a1 := QInf.minQ availEnd periodEnd
  (⌈(a0 - periodStart) / segmentDuration⌉ + startNumber,
   (⌈(a1 - periodStart) / segmentDuration⌉ - 1) + startNumber)

/-- `createReference(position)` inside `generateSegmentIndexFromDuration_`
(observable fields; URI resolution is identity data not modelled). -/
def createReference (periodStart : ℚ) (periodEnd : QInf)
    (segmentDuration : ℚ) (startNumber : ℤ) (scaledPTO : ℚ) (position : ℤ) :
    SegRef :=
  let positionWithinPeriod := position - startNumber
  let segmentPeriodTime := (positionWithinPeriod : ℚ) * segmentDuration
  let segmentStart := segmentPeriodTime + periodStart
  let trueSegmentEnd := segmentStart + segmentDuration
  let segmentEnd := QInf.minQ trueSegmentEnd periodEnd
  { startTime := segmentStart
    endTime := segmentEnd
    trueEndTime := trueSegmentEnd
    startByte := 0
    endByte := none
    timestampOffset := periodStart - scaledPTO
    appendWindowStart := periodStart
    appendWindowEnd := periodEnd
    partialReferences := []
    allPartialSegments := false }

/-- The initial reference generation of
`generateSegmentIndexFromDuration_`: one reference per position from
`minPosition` to `maxPosition` (live manifests cap the count backward from
the newest with `segmentLimit`). -/
def generateSegmentIndexFromDuration (availStart availEnd periodStart : ℚ)
    (periodEnd : QInf) (segmentDuration : ℚ) (startNumber : ℤ)
    (scaledPTO : ℚ) (dynamic : Bool) (segmentLimit : ℤ) : List SegRef :=
  let range := computeAvailablePositionRange availStart availEnd periodStart
    periodEnd segmentDuration startNumber
  let minPosition := if dynamic then max range.1 (range.2 - segmentLimit + 1)
    else range.1
  let maxPosition := range.2
  (List.range (maxPosition - minPosition + 1).toNat).map
    (fun i => createReference periodStart periodEnd segmentDuration
      startNumber scaledPTO (minPosition + i))

end SegmentTemplate

/-! ## WebM cues parsing -/

/-- A parsed `CuePoint`: unscaled cue time and byte offset relative to the
WebM Segment element (`parseCuePoint_`'s result). -/
structure CueTuple where
  unscaledTime : ℕ
  relativeOffset : ℕ
deriving DecidableEq

namespace WebmSegmentIndex

/-- `parseInfo_`: the timecode scale in seconds per unit (from the
`TimecodeScale` element in nanoseconds, default 1000000) and the container
duration in seconds; a missing `Duration` element is an error. -/
def parseInfo (timecodeScaleNanoseconds : ℕ) (durationScale : Option ℚ) :
    Except String (ℚ × ℚ) :=
  match durationScale with
  | none => .error "WEBM_DURATION_ELEMENT_MISSING"
  | some dur =>
    let timecodeScale : ℚ := (timecodeScaleNanoseconds : ℚ) / 1000000000
    .ok (timecodeScale, dur * timecodeScale)

/-- Loop of `parseCues_` over cue points.  Pushing a non-trailing
reference executes `new shaka.media.SegmentReference(...)`, but no global
`shaka` object exists anywhere in this repository (the file imports
`SegmentReference` locally yet this call site was not converted), so that
statement throws a `ReferenceError` as soon as a second cue point is
processed. -/
def parseCuesLoop (segmentOffset : ℤ) (timecodeScale : ℚ) (duration : ℚ)
    (timestampOffset appendWindowStart : ℚ) (appendWindowEnd : QInf) :
    List CueTuple → Option (ℚ × ℤ) → List SegRef →
    Except String (List SegRef)
  | [], last, acc =>
    match last with
    | none => .ok acc
    | some (lastTime, lastOffset) =>
      .ok (acc ++ [{
        startTime := lastTime + timestampOffset
        endTime := duration + timestampOffset
        trueEndTime := duration + timestampOffset
        startByte := lastOffset
        endByte := none
        timestampOffset := timestampOffset
        appendWindowStart := appendWindowStart
        appendWindowEnd := appendWindowEnd
        partialReferences := []
        allPartialSegments := false }])
  | tuple :: rest, last, acc =>
    let currentTime := timecodeScale * (tuple.unscaledTime : ℚ)
    let currentOffset := segmentOffset + (tuple.relativeOffset : ℤ)
    match last with
    | some _ => .error "ReferenceError: shaka is not defined"
    | none =>
      parseCuesLoop segmentOffset timecodeScale duration timestampOffset
        appendWindowStart appendWindowEnd rest
        (some (currentTime, currentOffset)) acc

/-- `parseCues_` as written in the source (crashes on the second cue
point, see `parseCuesLoop`). -/
def parseCues (cues : List CueTuple) (segmentOffset : ℤ) (timecodeScale : ℚ)
    (duration : ℚ) (timestampOffset appendWindowStart : ℚ)
    (appendWindowEnd : QInf) : Except String (List SegRef) :=
  parseCuesLoop segmentOffset timecodeScale duration timestampOffset
    appendWindowStart appendWindowEnd cues none []

/-- Modelled from the spec: the intended non-trailing reference push of
`parseCues_` (spec §4.5: consecutive cue points become references spanning
`[prevTime, currentTime)` seconds and `[prevOffset, currentOffset-1]`
bytes), i.e. the source's line with the constructor taken as the locally
imported `SegmentReference` instead of the undefined global
`shaka.media.SegmentReference`. -/
def parseCuesIntendedLoop (segmentOffset : ℤ) (timecodeScale : ℚ)
    (duration : ℚ) (timestampOffset appendWindowStart : ℚ)
    (appendWindowEnd : QInf) :
    List CueTuple → Option (ℚ × ℤ) → List SegRef → List SegRef
  | [], last, acc =>
    match last with
    | none => acc
    | some (lastTime, lastOffset) =>
      acc ++ [{
        startTime := lastTime + timestampOffset
        endTime := duration + timestampOffset
        trueEndTime := duration + timestampOffset
        startByte := lastOffset
        endByte := none
        timestampOffset := timestampOffset
        appendWindowStart := appendWindowStart
        appendWindowEnd := appendWindowEnd
        partialReferences := []
        allPartialSegments := false }]
  | tuple :: rest, last, acc =>
    let currentTime := timecodeScale * (tuple.unscaledTime : ℚ)
    let currentOffset := segmentOffset + (tuple.relativeOffset : ℤ)
    let acc' :=
      match last with
      | some (lastTime, lastOffset) =>
        acc ++ [{
          startTime := lastTime + timestampOffset
          endTime := currentTime + timestampOffset
          trueEndTime := currentTime + timestampOffset
          startByte := lastOffset
          endByte := some (currentOffset - 1)
          timestampOffset := timestampOffset
          appendWindowStart := appendWindowStart
          appendWindowEnd := appendWindowEnd
          partialReferences := []
          allPartialSegments := false }]
      | none => acc
    parseCuesIntendedLoop segmentOffset timecodeScale duration
      timestampOffset appendWindowStart appendWindowEnd rest
      (some (currentTime, currentOffset)) acc'

/-- `parseCues_` with the intended constructor (see
`parseCuesIntendedLoop`). -/
def parseCuesIntended (cues : List CueTuple) (segmentOffset : ℤ)
    (timecodeScale : ℚ) (duration : ℚ)
    (timestampOffset appendWindowStart : ℚ) (appendWindowEnd : QInf) :
    List SegRef :=
  parseCuesIntendedLoop segmentOffset timecodeScale duration timestampOffset
    appendWindowStart appendWindowEnd cues none []

end WebmSegmentIndex

/-! ## DataViewReader -/

/-- Failure modes of a `DataViewReader` operation: a buffer-bounds
violation (`BUFFER_READ_OUT_OF_BOUNDS`), the `ReferenceError` thrown by
`readUint64`'s overflow branch (it constructs `new shaka.util.Error(...)`
but no global `shaka` object exists in this repository), and a Node
`assert` failure on a negative argument. -/
inductive DVRError where
  | bufferReadOutOfBounds
  | referenceErrorShakaUndefined
  | assertionFailed
deriving DecidableEq

/-- The state of a `DataViewReader`: the underlying byte buffer, the
endianness flag and the cursor. -/
structure DataViewReader where
  data : List ℕ
  littleEndian_ : Bool
  position_ : ℕ
deriving DecidableEq

namespace DataViewReader

/-- Byte `i` of the underlying buffer (buffers hold octets; reads are
taken modulo 256 so the model never depends on malformed input lists). -/
def byteAt (s : DataViewReader) (i : ℕ) : ℕ := (s.data.getD i 0) % 256

/-- `getLength()`. -/
def getLength (s : DataViewReader) : ℕ := s.data.length

/-- An unsigned big-endian or little-endian 16-bit value at `p`. -/
def uint16At (s : DataViewReader) (p : ℕ) : ℕ :=
  if s.littleEndian_ then byteAt s p + byteAt s (p + 1) * 2 ^ 8
  else byteAt s p * 2 ^ 8 + byteAt s (p + 1)

/-- An unsigned big-endian or little-endian 32-bit value at `p`. -/
def uint32At (s : DataViewReader) (p : ℕ) : ℕ :=
  if s.littleEndian_ then
    byteAt s p + byteAt s (p + 1) * 2 ^ 8 + byteAt s (p + 2) * 2 ^ 16 +
      byteAt s (p + 3) * 2 ^ 24
  else
    byteAt s p * 2 ^ 24 + byteAt s (p + 1) * 2 ^ 16 +
      byteAt s (p + 2) * 2 ^ 8 + byteAt s (p + 3)

/-- `readUint8()`. -/
def readUint8 (s : DataViewReader) : Except DVRError ℕ × DataViewReader :=
  if s.position_ + 1 ≤ getLength s then
    (.ok (byteAt s s.position_), { s with position_ := s.position_ + 1 })
  else (.error .bufferReadOutOfBounds, s)

/-- `readUint16()`. -/
def readUint16 (s : DataViewReader) : Except DVRError ℕ × DataViewReader :=
  if s.position_ + 2 ≤ getLength s then
    (.ok (uint16At s s.position_), { s with position_ := s.position_ + 2 })
  else (.error .bufferReadOutOfBounds, s)

/-- `readUint32()`. -/
def readUint32 (s : DataViewReader) : Except DVRError ℕ × DataViewReader :=
  if s.position_ + 4 ≤ getLength s then
    (.ok (uint32At s s.position_), { s with position_ := s.position_ + 4 })
  else (.error .bufferReadOutOfBounds, s)

/-- `readInt32()` (two's-complement reinterpretation of the unsigned
32-bit value). -/
def readInt32 (s : DataViewReader) : Except DVRError ℤ × DataViewReader :=
  if s.position_ + 4 ≤ getLength s then
    let u := uint32At s s.position_
    let v : ℤ := if u < 2 ^ 31 then (u : ℤ) else (u : ℤ) - 2 ^ 32
    (.ok v, { s with position_ := s.position_ + 4 })
  else (.error .bufferReadOutOfBounds, s)

/-- The `high` 32-bit half read by `readUint64` (endianness-dependent). -/
def uint64High (s : DataViewReader) : ℕ :=
  if s.littleEndian_ then uint32At s (s.position_ + 4) else uint32At s s.position_

/-- The `low` 32-bit half read by `readUint64`. -/
def uint64Low (s : DataViewReader) : ℕ :=
  if s.littleEndian_ then uint32At s s.position_ else uint32At s (s.position_ + 4)

/-- `readUint64()`: both 32-bit halves must be in bounds; a high half
above `0x1FFFFF` throws (from the overflow branch) before the cursor
moves; otherwise the value is `high * 2^32 + low` and the cursor advances
by 8. -/
def readUint64 (s : DataViewReader) : Except DVRError ℕ × DataViewReader :=
  if s.position_ + 8 ≤ getLength s then
    let high := uint64High s
    let low := uint64Low s
    if high > 0x1FFFFF then (.error .referenceErrorShakaUndefined, s)
    else (.ok (high * 2 ^ 32 + low), { s with position_ := s.position_ + 8 })
  else (.error .bufferReadOutOfBounds, s)

/-- `readBytes(bytes)`: `assert(bytes >= 0)`, explicit bounds check, then
the byte slice is returned and the cursor advances. -/
def readBytes (s : DataViewReader) (bytes : ℤ) :
    Except DVRError (List ℕ) × DataViewReader :=
  if bytes < 0 then (.error .assertionFailed, s)
  else if s.position_ + bytes.toNat > getLength s then
    (.error .bufferReadOutOfBounds, s)
  else
    ((.ok ((List.range bytes.toNat).map (fun i => byteAt s (s.position_ + i)))),
      { s with position_ := s.position_ + bytes.toNat })

/-- `skip(bytes)`. -/
def skip (s : DataViewReader) (bytes : ℤ) :
    Except DVRError Unit × DataViewReader :=
  if bytes < 0 then (.error .assertionFailed, s)
  else if s.position_ + bytes.toNat > getLength s then
    (.error .bufferReadOutOfBounds, s)
  else (.ok (), { s with position_ := s.position_ + bytes.toNat })

/-- `rewind(bytes)`. -/
def rewind (s : DataViewReader) (bytes : ℤ) :
    Except DVRError Unit × DataViewReader :=
  if bytes < 0 then (.error .assertionFailed, s)
  else if s.position_ < bytes.toNat then (.error .bufferReadOutOfBounds, s)
  else (.ok (), { s with position_ := s.position_ - bytes.toNat })

/-- `seek(position)`: the `assert(position >= 0)` fires first, then the
explicit range check. -/
def seek (s : DataViewReader) (position : ℤ) :
    Except DVRError Unit × DataViewReader :=
  if position < 0 then (.error .assertionFailed, s)
  else if position.toNat > getLength s then (.error .bufferReadOutOfBounds, s)
  else (.ok (), { s with position_ := position.toNat })

/-- Cursor atomicity of one operation: on success the cursor lands exactly
on `expected` with the buffer untouched; on failure the whole state is
untouched. -/
def atomicStep {α : Type} (s : DataViewReader)
    (r : Except DVRError α × DataViewReader) (expected : ℕ) : Prop :=
  match r with
  | (.ok _, s') => s' = { s with position_ := expected }
  | (.error _, s') => s' = s

end DataViewReader

/-! ## Auxiliary definitions used by the theorem statements -/

namespace TimelineSegmentIndex

/-- The (absolute) start of entry `i`'s window in `find`'s scan, over an
explicit timeline list. -/
def wStartL (periodStart : ℚ) (tl : List TimeRange) (i : ℕ) : ℚ :=
  (tl.getD i default).start + periodStart

/-- The (absolute) end of entry `i`'s window in `find`'s scan, over an
explicit timeline list: the next entry's start, or — for the last entry —
the period end (the entry's own end when the period is infinite). -/
def wEndL (periodStart : ℚ) (periodEnd : QInf) (tl : List TimeRange)
    (i : ℕ) : ℚ :=
  match (tl.drop (i + 1)).head? with
  | some nx => nx.start + periodStart
  | none =>
    match periodEnd with
    | .inf => (tl.getD i default).end_ + periodStart
    | .fin q => q

/-- The (absolute) start of entry `i`'s window in `find`'s scan. -/
def windowStart (s : TimelineSegmentIndex) (ti : SegmentTemplateInfo)
    (i : ℕ) : ℚ :=
  wStartL s.periodStart_ (tsiTimeline ti) i

/-- The (absolute) end of entry `i`'s window in `find`'s scan. -/
def windowEnd (s : TimelineSegmentIndex) (ti : SegmentTemplateInfo)
    (i : ℕ) : ℚ :=
  wEndL s.periodStart_ s.periodEnd_ (tsiTimeline ti) i

end TimelineSegmentIndex

/-- A four-entry template info used by the concrete
`TimelineSegmentIndex` scenarios below. -/
def exInfoTsi : SegmentTemplateInfo :=
  { timescale := 1
    segmentDuration := none
    startNumber := 1
    scaledPresentationTimeOffset := 0
    unscaledPresentationTimeOffset := 0
    timeline := some [⟨0, 1, 0, 0, 1⟩, ⟨1, 2, 1, 0, 2⟩,
                      ⟨2, 3, 2, 0, 3⟩, ⟨3, 4, 3, 0, 4⟩]
    mediaTemplate := some "m"
    indexTemplate := none }

/-- A fresh timeline segment index over `exInfoTsi` (period `[0, 100)`,
nothing evicted, empty reference cache). -/
def exTsi : TimelineSegmentIndex :=
  { templateInfo_ := some exInfoTsi
    periodStart_ := 0
    periodEnd_ := .fin 100
    numEvicted_ := 0
    references := []
    segmentSequenceCadence_ := 0 }

/-- The same index shifted to period start 10 (timeline entries are
period-relative), used for the `find` boundary scenario. -/
def exTsiShifted : TimelineSegmentIndex := { exTsi with periodStart_ := 10 }

/-- A little reader over eight zero-leading bytes, used as the concrete
`readUint64` witness input. -/
def exReader : DataViewReader :=
  { data := [0, 0, 0, 0, 0, 0, 0, 7], littleEndian_ := false, position_ := 0 }

/-- The reference `get` materializes for entry 0 of `exTsi`. -/
def refEx0 : SegRef := ⟨0, 1, 1, 0, none, 0, 0, .fin 100, [], false⟩

/-- The reference `get` materializes for entry 3 of `exTsi` (the last
entry, so its endTime is the cached period end 100). -/
def refEx3 : SegRef := ⟨3, 100, 4, 0, none, 0, 0, .fin 100, [], false⟩

/-- `exTsi` after `get(0)` has materialized its first reference. -/
def sEx1 : TimelineSegmentIndex := { exTsi with references := [some refEx0] }

/-- `sEx1` after `evict(3)`: three timeline entries dropped, but the
one-slot cache was left untouched (its length 1 is below the eviction
count 3), so the cached first reference now sits at corrected position
0 = global position 3. -/
def sEx2 : TimelineSegmentIndex :=
  { templateInfo_ := some { exInfoTsi with timeline := some [⟨3, 4, 3, 0, 4⟩] }
    periodStart_ := 0
    periodEnd_ := .fin 100
    numEvicted_ := 3
    references := [some refEx0]
    segmentSequenceCadence_ := 0 }

/-! ## Theorems -/

/-- A finite period end is never the infinite one. -/
theorem finNeInf (q : ℚ) : QInf.fin q ≠ QInf.inf := by intro h; cases h

/-- C5: fixed-duration SegmentTemplate generation with segmentDuration 4,
startNumber 1 and availability window [0,10) over a static period
[0,10) produces exactly positions 1..3, whose references cover
[0,4), [4,8) and [8,12), the last clipped to endTime 10 (the append
window end) with trueEndTime still 12 — for every segmentLimit, which is
not consulted for non-dynamic manifests. -/
theorem C5_fixed_duration_generation (segmentLimit : ℤ) :
    SegmentTemplate.computeAvailablePositionRange 0 10 0 (.fin 10) 4 1 =
      (1, 3) ∧
    SegmentTemplate.generateSegmentIndexFromDuration 0 10 0 (.fin 10) 4 1 0
      false segmentLimit =
      [⟨0, 4, 4, 0, none, 0, 0, .fin 10, [], false⟩,
       ⟨4, 8, 8, 0, none, 0, 0, .fin 10, [], false⟩,
       ⟨8, 10, 12, 0, none, 0, 0, .fin 10, [], false⟩] := by
  have hr : SegmentTemplate.computeAvailablePositionRange 0 10 0 (.fin 10) 4 1
      = (1, 3) := by
    unfold SegmentTemplate.computeAvailablePositionRange
    norm_num [QInf.minQ, Int.ceil_eq_iff]
  refine ⟨hr, ?_⟩
  simp only [SegmentTemplate.generateSegmentIndexFromDuration, hr]
  have hrange : ((List.range (Int.toNat 3)).flatMap fun a => [(a : ℤ)])
      = [0, 1, 2] := rfl
  norm_num [SegmentTemplate.createReference, QInf.minQ, SegRef.mk.injEq,
    hrange, List.map_cons, List.map_nil]

/-- C7: on the claimed input — cue points at unscaled times 0 and 1000
with timecode scale 1/1000 (TimecodeScale 1000000 ns), cluster offsets
100 and 500, segment offset 0, timestamp offset 0 — `parseCues_` as
written throws a ReferenceError while pushing the first (non-trailing)
reference, because it constructs `new shaka.media.SegmentReference(...)`
and no global `shaka` exists in the repository; with the locally imported
constructor (the evident intent, used by the trailing push) it yields
exactly the two claimed references `[0,1)` over bytes `[100,499]` and a
trailing `[1, Duration)` with an open end byte.  `parseInfo_` maps
TimecodeScale 1000000 to 1/1000 seconds per unit. -/
theorem C7_webm_cues_two_cue_points (dur : ℚ) (aws : ℚ) (awe : QInf) :
    WebmSegmentIndex.parseCues [⟨0, 100⟩, ⟨1000, 500⟩] 0 (1/1000) dur 0
      aws awe = .error "ReferenceError: shaka is not defined" ∧
    WebmSegmentIndex.parseCuesIntended [⟨0, 100⟩, ⟨1000, 500⟩] 0 (1/1000)
      dur 0 aws awe =
      [⟨0, 1, 1, 100, some 499, 0, aws, awe, [], false⟩,
       ⟨1, dur, dur, 500, none, 0, aws, awe, [], false⟩] ∧
    WebmSegmentIndex.parseInfo 1000000 (some dur) =
      .ok (1/1000, dur * (1/1000)) := by
  refine ⟨rfl, ?_, ?_⟩
  · norm_num [WebmSegmentIndex.parseCuesIntended,
      WebmSegmentIndex.parseCuesIntendedLoop, SegRef.mk.injEq]
  · norm_num [WebmSegmentIndex.parseInfo]

/-- C3 counterexample: with unscaledPresentationTimeOffset 5, timescale 1
and a single S entry with no `t`, the first produced entry starts at `-5`
(i.e. `-unscaledPresentationTimeOffset`), not at 0 as claimed: the source
initializes `lastEndTime = -unscaledPresentationTimeOffset`. -/
theorem C3_counterexample_first_entry_not_zero :
    ((MpdUtils.createTimeline [⟨none, some 10, none, none⟩] 1 5 (.fin 100) 1
      ).getD 0 default).start = -5 ∧ ((-5 : ℚ) ≠ 0) := by
  constructor
  · norm_num [MpdUtils.createTimeline, MpdUtils.createTimelineLoop,
      MpdUtils.pushRepeats, MpdUtils.resolveRepeat]
  · norm_num

/-- C3 amended: in `createTimeline`, a first entry with no `t` starts at
`-unscaledPresentationTimeOffset` (timescale units) — not at 0 unless the
offset is 0; a present `t` is shifted by the offset before use; and a
later entry with no `t` starts at the previous entry's end. -/
theorem C3_amended_start_time_rules (d : ℕ) (hd : d ≠ 0) (ts : ℕ)
    (uPTO : ℤ) (pd : QInf) (sn : ℤ) (t0 d1 : ℕ) (hd1 : d1 ≠ 0) :
    MpdUtils.createTimeline [⟨none, some d, none, none⟩] ts uPTO pd sn =
      [⟨(-uPTO : ℚ) / (ts : ℚ), ((-uPTO + (d : ℤ) : ℤ) : ℚ) / (ts : ℚ),
        -uPTO, 0, sn⟩] ∧
    MpdUtils.createTimeline [⟨some t0, some d, none, none⟩] ts uPTO pd sn =
      [⟨(((t0 : ℤ) - uPTO : ℤ) : ℚ) / (ts : ℚ),
        (((t0 : ℤ) - uPTO + (d : ℤ) : ℤ) : ℚ) / (ts : ℚ),
        (t0 : ℤ) - uPTO, 0, sn⟩] ∧
    ((MpdUtils.createTimeline [⟨some t0, some d, none, none⟩,
        ⟨none, some d1, none, none⟩] ts uPTO pd sn).getD 1 default).start =
      ((MpdUtils.createTimeline [⟨some t0, some d, none, none⟩,
        ⟨none, some d1, none, none⟩] ts uPTO pd sn).getD 0 default).end_ := by
  refine ⟨?_, ?_, ?_⟩
  · simp [MpdUtils.createTimeline, MpdUtils.createTimelineLoop,
      MpdUtils.pushRepeats, MpdUtils.resolveRepeat, hd]
  · simp [MpdUtils.createTimeline, MpdUtils.createTimelineLoop,
      MpdUtils.pushRepeats, MpdUtils.resolveRepeat, hd]
  · simp [MpdUtils.createTimeline, MpdUtils.createTimelineLoop,
      MpdUtils.pushRepeats, MpdUtils.resolveRepeat, hd, hd1]

/-- C3 witness: the amended start-time rules instantiated at d = 10,
timescale 1, offset 5, a two-entry timeline with t0 = 20, d1 = 4. -/
theorem C3_amended_witness :
    MpdUtils.createTimeline [⟨none, some 10, none, none⟩] 1 5 (.fin 100) 1 =
      [⟨(-(5 : ℤ) : ℚ) / (1 : ℚ), ((-(5 : ℤ) + (10 : ℤ) : ℤ) : ℚ) / (1 : ℚ),
        -5, 0, 1⟩] ∧
    ((MpdUtils.createTimeline [⟨some 20, some 10, none, none⟩,
        ⟨none, some 4, none, none⟩] 1 5 (.fin 100) 1).getD 1 default).start =
      ((MpdUtils.createTimeline [⟨some 20, some 10, none, none⟩,
        ⟨none, some 4, none, none⟩] 1 5 (.fin 100) 1).getD 0 default).end_ := by
  have h := C3_amended_start_time_rules 10 (by norm_num) 1 5 (.fin 100) 1
    20 4 (by norm_num)
  exact ⟨h.1, h.2.2⟩

/-- C2 counterexample: on `sEx1` (four timeline entries, one materialized
reference) `evict(3)` drops k = 3 leading entries but does not drop 3
slots from the cache (`references.length >= numToEvict` fails), and
`get(3)` afterwards returns the stale reference materialized for old
position 0 instead of the reference it returned before eviction. -/
theorem C2_counterexample_stale_cache :
    (TimelineSegmentIndex.get exTsi 0).2 = sEx1 ∧
    TimelineSegmentIndex.evict sEx1 3 = sEx2 ∧
    sEx2.references ≠ sEx1.references.drop 3 ∧
    (TimelineSegmentIndex.get sEx2 3).1 = some refEx0 ∧
    (TimelineSegmentIndex.get sEx1 3).1 = some refEx3 ∧
    (TimelineSegmentIndex.get sEx2 3).1 ≠ (TimelineSegmentIndex.get sEx1 3).1 := by
  have h1 : (TimelineSegmentIndex.get exTsi 0).2 = sEx1 := by
    norm_num [TimelineSegmentIndex.get, TimelineSegmentIndex.getNumReferences,
      TimelineSegmentIndex.tsiTimeline, TimelineSegmentIndex.buildRef,
      TimelineSegmentIndex.listSetPad, exTsi, exInfoTsi, sEx1, refEx0]
  have h2 : TimelineSegmentIndex.evict sEx1 3 = sEx2 := by
    norm_num [TimelineSegmentIndex.evict, TimelineSegmentIndex.evictCount,
      TimelineSegmentIndex.tsiTimeline, TimelineSegmentIndex.getNumReferences,
      TimelineSegmentIndex.release, sEx1, sEx2, exTsi, exInfoTsi,
      List.takeWhile]
  have h4 : (TimelineSegmentIndex.get sEx2 3).1 = some refEx0 := by
    norm_num [TimelineSegmentIndex.get, TimelineSegmentIndex.getNumReferences,
      TimelineSegmentIndex.tsiTimeline, sEx2, exInfoTsi, refEx0, finNeInf]
  have h5 : (TimelineSegmentIndex.get sEx1 3).1 = some refEx3 := by
    norm_num [TimelineSegmentIndex.get, TimelineSegmentIndex.getNumReferences,
      TimelineSegmentIndex.tsiTimeline, TimelineSegmentIndex.buildRef,
      TimelineSegmentIndex.listSetPad, sEx1, exTsi, exInfoTsi, refEx3, refEx0,
      finNeInf]
  have hne : refEx0 ≠ refEx3 := by
    intro h
    have := congrArg SegRef.startTime h
    norm_num [refEx0, refEx3] at this
  refine ⟨h1, h2, ?_, h4, h5, ?_⟩
  · norm_num [sEx1, sEx2, exTsi]
  · rw [h4, h5]
    simp [hne]

/-- C6 counterexample: on `exTsiShifted` (period `[10, 100)`, first entry
starting at absolute time 10, nothing evicted) the time 5 lies outside
`[periodStart, periodEnd)`, yet `find(5)` returns the eviction counter 0
rather than "not found": the `isBeforeFirstEntry` check runs before the
period-bounds check. -/
theorem C6_counterexample_before_period_start :
    TimelineSegmentIndex.find exTsiShifted 5 = some 0 ∧
    (5 : ℚ) < exTsiShifted.periodStart_ := by
  constructor
  · norm_num [TimelineSegmentIndex.find, TimelineSegmentIndex.isBeforeFirstEntry,
      TimelineSegmentIndex.tsiTimeline, exTsiShifted, exTsi, exInfoTsi]
  · norm_num [exTsiShifted, exTsi]

/-- C4: `fillUriTemplate` replaces each `$Identifier[%0Wf]$` token with the
value formatted in the requested base (decimal for d/i/u or no specifier,
octal for o, hexadecimal for x/X) zero-padded to width W (default 1, and
for every decimal value via the general conjunct), replaces `$$` with a
literal `$`, and in particular maps `"$Number%05d$.mp4"` with number 7 to
`"00007.mp4"`. -/
theorem C4_fillUriTemplate_tokens (n : ℕ) :
    MpdUtils.fillUriTemplate "$Number%05d$.mp4" none (some 7) none none none
      = .ok "00007.mp4" ∧
    MpdUtils.fillUriTemplate "$$" none none none none none = .ok "$" ∧
    MpdUtils.fillUriTemplate "$Number%05d$.mp4" none (some (n : ℤ)) none none
      none = .ok ⟨List.replicate (5 - (Nat.toDigits 10 n).length) '0' ++
        Nat.toDigits 10 n ++ ".mp4".data⟩ ∧
    MpdUtils.fillUriTemplate "$Number$" none (some 7) none none none
      = .ok "7" ∧
    MpdUtils.fillUriTemplate "$Bandwidth%08x$" none none none (some 255) none
      = .ok "000000ff" ∧
    MpdUtils.fillUriTemplate "$Number%03o$" none (some 8) none none none
      = .ok "010" ∧
    MpdUtils.fillUriTemplate "$RepresentationID%05d$" (some "rep1") none none
      none none = .ok "rep1" ∧
    MpdUtils.fillUriTemplate "$Time%01X$" none none none none (some 255)
      = .ok "FF" := by
  have hr : MpdUtils.jsRound 255 = 255 := by
    norm_num [MpdUtils.jsRound, Int.floor_eq_iff]
  have h0 : ¬((n : ℤ) < 0) := by omega
  refine ⟨?_, ?_, ?_, ?_, ?_, ?_, ?_, ?_⟩ <;>
    simp [h0, MpdUtils.fillUriTemplate, MpdUtils.fillScan, MpdUtils.matchToken,
      MpdUtils.tryIdent, MpdUtils.dropPfx, MpdUtils.tryFmtClose,
      MpdUtils.tryFmt, MpdUtils.tryClose, MpdUtils.processMatch,
      MpdUtils.toValueString, MpdUtils.intToStringBase, MpdUtils.digitsToNat,
      MpdUtils.jsOr, String.data, Except.map, Except.bind, bind,
      List.append_assoc, hr, MpdUtils.tokenText] <;> rfl

/-- C8: `checkSegmentTemplateInfo_` throws DASH_NO_SEGMENT_INFO when none
of index template / timeline / fixed duration is present; when several are
present the index template wins over the timeline, which wins over the
duration (the losers are nulled out); and an info without both an index
template and a media template always throws. -/
theorem C8_checkSegmentTemplateInfo (info : SegmentTemplateInfo) :
    (jsTruthyStr info.indexTemplate = false → info.timeline.isSome = false →
      jsTruthyNum info.segmentDuration = false →
      SegmentTemplate.checkSegmentTemplateInfo info =
        .error "DASH_NO_SEGMENT_INFO") ∧
    (jsTruthyStr info.indexTemplate = true →
      (info.timeline.isSome = true ∨ jsTruthyNum info.segmentDuration = true) →
      SegmentTemplate.checkSegmentTemplateInfo info =
        .ok { info with timeline := none, segmentDuration := none }) ∧
    (jsTruthyStr info.indexTemplate = false → info.timeline.isSome = true →
      jsTruthyNum info.segmentDuration = true →
      jsTruthyStr info.mediaTemplate = true →
      SegmentTemplate.checkSegmentTemplateInfo info =
        .ok { info with segmentDuration := none }) ∧
    (jsTruthyStr info.indexTemplate = false →
      jsTruthyStr info.mediaTemplate = false →
      SegmentTemplate.checkSegmentTemplateInfo info =
        .error "DASH_NO_SEGMENT_INFO") := by
  refine ⟨?_, ?_, ?_, ?_⟩
  · intro h1 h2 h3
    simp [SegmentTemplate.checkSegmentTemplateInfo, h1, h2, h3]
  · intro h1 h2
    rcases h2 with h2 | h2
    · cases h3 : jsTruthyNum info.segmentDuration <;>
        simp [SegmentTemplate.checkSegmentTemplateInfo, h1, h2, h3]
    · cases h2' : info.timeline.isSome <;>
        simp [SegmentTemplate.checkSegmentTemplateInfo, h1, h2, h2']
  · intro h1 h2 h3 h4
    simp [SegmentTemplate.checkSegmentTemplateInfo, h1, h2, h3, h4]
  · intro h1 h4
    cases h2 : info.timeline.isSome <;>
      cases h3 : jsTruthyNum info.segmentDuration <;>
        simp [SegmentTemplate.checkSegmentTemplateInfo, h1, h2, h3, h4]

/-- C8 witness: the validation applied to three concrete infos — all
sources absent (throws), index template plus timeline (index wins, both
competitors nulled), and timeline plus duration with a media template
(timeline wins, duration nulled). -/
theorem C8_checkSegmentTemplateInfo_witness :
    SegmentTemplate.checkSegmentTemplateInfo
      ⟨1, none, 1, 0, 0, none, none, none⟩ =
        .error "DASH_NO_SEGMENT_INFO" ∧
    SegmentTemplate.checkSegmentTemplateInfo
      ⟨1, none, 1, 0, 0, some [], some "m", some "i"⟩ =
        .ok ⟨1, none, 1, 0, 0, none, some "m", some "i"⟩ ∧
    SegmentTemplate.checkSegmentTemplateInfo
      ⟨1, some 4, 1, 0, 0, some [], some "m", none⟩ =
        .ok ⟨1, none, 1, 0, 0, some [], some "m", none⟩ := by
  refine ⟨?_, ?_, ?_⟩
  · exact (C8_checkSegmentTemplateInfo _).1 (by norm_num [jsTruthyStr])
      (by norm_num) (by norm_num [jsTruthyNum])
  · exact (C8_checkSegmentTemplateInfo _).2.1
      (by simp [jsTruthyStr]) (Or.inl (by norm_num))
  · exact (C8_checkSegmentTemplateInfo _).2.2.1 (by norm_num [jsTruthyStr])
      (by norm_num) (by norm_num [jsTruthyNum]) (by simp [jsTruthyStr])

/-- Every buffer byte is an octet. -/
theorem byteAt_lt (s : DataViewReader) (i : ℕ) :
    DataViewReader.byteAt s i < 256 := by
  unfold DataViewReader.byteAt
  omega

/-- Every 32-bit read fits in 32 bits. -/
theorem uint32At_lt (s : DataViewReader) (p : ℕ) :
    DataViewReader.uint32At s p < 2 ^ 32 := by
  unfold DataViewReader.uint32At
  have h0 := byteAt_lt s p
  have h1 := byteAt_lt s (p + 1)
  have h2 := byteAt_lt s (p + 2)
  have h3 := byteAt_lt s (p + 3)
  split <;> omega

/-- C9: `readUint64` on a reader with at least eight bytes remaining
throws exactly when the high-order 32 bits exceed 0x1FFFFF — equivalently,
exactly when `high * 2^32 + low` would not fit in 53 bits — leaving the
whole reader state (in particular the position) unchanged; otherwise it
returns `high * 2^32 + low` and advances the position by 8. -/
theorem C9_readUint64_overflow (s : DataViewReader)
    (hpos : s.position_ + 8 ≤ DataViewReader.getLength s) :
    (DataViewReader.uint64High s > 0x1FFFFF →
      DataViewReader.readUint64 s = (.error .referenceErrorShakaUndefined, s) ∧
      2 ^ 53 ≤ DataViewReader.uint64High s * 2 ^ 32 +
        DataViewReader.uint64Low s) ∧
    (DataViewReader.uint64High s ≤ 0x1FFFFF →
      DataViewReader.readUint64 s =
        (.ok (DataViewReader.uint64High s * 2 ^ 32 +
          DataViewReader.uint64Low s),
         { s with position_ := s.position_ + 8 }) ∧
      DataViewReader.uint64High s * 2 ^ 32 + DataViewReader.uint64Low s
        < 2 ^ 53) := by
  have hlow : DataViewReader.uint64Low s < 2 ^ 32 := by
    unfold DataViewReader.uint64Low
    split <;> exact uint32At_lt s _
  constructor
  · intro h
    constructor
    · unfold DataViewReader.readUint64
      rw [if_pos hpos, if_pos h]
    · omega
  · intro h
    constructor
    · unfold DataViewReader.readUint64
      rw [if_pos hpos, if_neg (by omega)]
    · omega

/-- C9 witness: reading the big-endian bytes 00 00 00 00 00 00 00 07 from
position 0 returns 7 and moves the position to 8. -/
theorem C9_readUint64_witness :
    DataViewReader.readUint64 exReader =
      (.ok (DataViewReader.uint64High exReader * 2 ^ 32 +
        DataViewReader.uint64Low exReader),
       { exReader with position_ := exReader.position_ + 8 }) :=
  ((C9_readUint64_overflow exReader (by norm_num [exReader,
    DataViewReader.getLength])).2 (by norm_num [DataViewReader.uint64High,
      DataViewReader.uint32At, DataViewReader.byteAt, exReader])).1

/-- C10: every fixed-width `DataViewReader` operation is atomic with
respect to the cursor: on success the position advances by exactly the
requested amount (1/2/4/4/8 bytes for the reads, the requested count for
readBytes/skip, backwards for rewind, and to the requested target for
seek) with the buffer untouched, and on any failure the reader state is
left entirely unchanged. -/
theorem C10_cursor_atomicity (s : DataViewReader) (n : ℤ) :
    DataViewReader.atomicStep s (DataViewReader.readUint8 s)
      (s.position_ + 1) ∧
    DataViewReader.atomicStep s (DataViewReader.readUint16 s)
      (s.position_ + 2) ∧
    DataViewReader.atomicStep s (DataViewReader.readUint32 s)
      (s.position_ + 4) ∧
    DataViewReader.atomicStep s (DataViewReader.readInt32 s)
      (s.position_ + 4) ∧
    DataViewReader.atomicStep s (DataViewReader.readUint64 s)
      (s.position_ + 8) ∧
    DataViewReader.atomicStep s (DataViewReader.readBytes s n)
      (s.position_ + n.toNat) ∧
    DataViewReader.atomicStep s (DataViewReader.skip s n)
      (s.position_ + n.toNat) ∧
    DataViewReader.atomicStep s (DataViewReader.rewind s n)
      (s.position_ - n.toNat) ∧
    DataViewReader.atomicStep s (DataViewReader.seek s n) n.toNat := by
  refine ⟨?_, ?_, ?_, ?_, ?_, ?_, ?_, ?_, ?_⟩
  · unfold DataViewReader.atomicStep DataViewReader.readUint8
    by_cases h : s.position_ + 1 ≤ DataViewReader.getLength s <;> simp [h]
  · unfold DataViewReader.atomicStep DataViewReader.readUint16
    by_cases h : s.position_ + 2 ≤ DataViewReader.getLength s <;> simp [h]
  · unfold DataViewReader.atomicStep DataViewReader.readUint32
    by_cases h : s.position_ + 4 ≤ DataViewReader.getLength s <;> simp [h]
  · unfold DataViewReader.atomicStep DataViewReader.readInt32
    by_cases h : s.position_ + 4 ≤ DataViewReader.getLength s <;> simp [h]
  · unfold DataViewReader.atomicStep DataViewReader.readUint64
    by_cases h : s.position_ + 8 ≤ DataViewReader.getLength s <;>
      by_cases h2 : DataViewReader.uint64High s > 0x1FFFFF <;> simp [h, h2]
  · unfold DataViewReader.atomicStep DataViewReader.readBytes
    by_cases h : n < 0 <;>
      by_cases h2 : s.position_ + n.toNat > DataViewReader.getLength s <;>
      simp [h, h2]
  · unfold DataViewReader.atomicStep DataViewReader.skip
    by_cases h : n < 0 <;>
      by_cases h2 : s.position_ + n.toNat > DataViewReader.getLength s <;>
      simp [h, h2]
  · unfold DataViewReader.atomicStep DataViewReader.rewind
    by_cases h : n < 0 <;>
      by_cases h2 : s.position_ < n.toNat <;> simp [h, h2]
  · unfold DataViewReader.atomicStep DataViewReader.seek
    by_cases h : n < 0 <;>
      by_cases h2 : n.toNat > DataViewReader.getLength s <;> simp [h, h2]

/-- One unfolding step of `find`'s scan, phrased with the window bounds. -/
theorem findLoop_cons (ps : ℚ) (pe : QInf) (ne : ℕ) (t : ℚ) (r : TimeRange)
    (rest : List TimeRange) (b : ℕ) :
    TimelineSegmentIndex.findLoop ps pe ne t (r :: rest) b =
      if t ≥ TimelineSegmentIndex.wStartL ps (r :: rest) 0 ∧
          t < TimelineSegmentIndex.wEndL ps pe (r :: rest) 0
      then some (b + ne)
      else TimelineSegmentIndex.findLoop ps pe ne t rest (b + 1) := rfl

/-- Window starts shift along the tail of the timeline. -/
theorem wStartL_cons_succ (ps : ℚ) (r : TimeRange) (rest : List TimeRange)
    (i : ℕ) : TimelineSegmentIndex.wStartL ps (r :: rest) (i + 1) =
      TimelineSegmentIndex.wStartL ps rest i := rfl

/-- Window ends shift along the tail of the timeline. -/
theorem wEndL_cons_succ (ps : ℚ) (pe : QInf) (r : TimeRange)
    (rest : List TimeRange) (i : ℕ) :
    TimelineSegmentIndex.wEndL ps pe (r :: rest) (i + 1) =
      TimelineSegmentIndex.wEndL ps pe rest i := rfl

/-- `find`'s scan returns the first entry whose window contains the time,
offset by the base index and the eviction counter. -/
theorem findLoop_eq_some (ps : ℚ) (pe : QInf) (ne : ℕ) (t : ℚ) :
    ∀ (tl : List TimeRange) (b i : ℕ), i < tl.length →
      TimelineSegmentIndex.wStartL ps tl i ≤ t →
      t < TimelineSegmentIndex.wEndL ps pe tl i →
      (∀ j, j < i → ¬(TimelineSegmentIndex.wStartL ps tl j ≤ t ∧
        t < TimelineSegmentIndex.wEndL ps pe tl j)) →
      TimelineSegmentIndex.findLoop ps pe ne t tl b = some (b + i + ne) := by
  intro tl
  induction tl with
  | nil => intro b i hi; simp at hi
  | cons r rest ih =>
    intro b i hi h1 h2 hj
    rw [findLoop_cons]
    cases i with
    | zero =>
      rw [if_pos ⟨h1, h2⟩]
      simp
    | succ i' =>
      have hhead := hj 0 (by omega)
      rw [if_neg (by tauto)]
      have hres := ih (b + 1) i' (by simpa using hi)
        (by rw [wStartL_cons_succ] at h1; exact h1)
        (by rw [wEndL_cons_succ] at h2; exact h2)
        (fun j hji => by
          have hx := hj (j + 1) (by omega)
          rw [wStartL_cons_succ, wEndL_cons_succ] at hx
          exact hx)
      rw [hres]
      congr 1
      omega

/-- C6 amended: `find`'s checks run in this order — the before-first-entry
check first (returning the eviction counter even for times before the
period start), then the released-index check, then the period-bounds
check (returning "not found"), and finally the scan, which returns the
global position of the first entry whose window contains the time. -/
theorem C6_amended_find_order (s : TimelineSegmentIndex) (t : ℚ) :
    (TimelineSegmentIndex.isBeforeFirstEntry s t = true →
      TimelineSegmentIndex.find s t = some s.numEvicted_) ∧
    (TimelineSegmentIndex.isBeforeFirstEntry s t = false →
      s.templateInfo_ = none → TimelineSegmentIndex.find s t = none) ∧
    (TimelineSegmentIndex.isBeforeFirstEntry s t = false →
      (t < s.periodStart_ ∨ QInf.geB t s.periodEnd_ = true) →
      TimelineSegmentIndex.find s t = none) ∧
    (∀ ti i, s.templateInfo_ = some ti →
      TimelineSegmentIndex.isBeforeFirstEntry s t = false →
      ¬(t < s.periodStart_ ∨ QInf.geB t s.periodEnd_ = true) →
      i < (TimelineSegmentIndex.tsiTimeline ti).length →
      TimelineSegmentIndex.windowStart s ti i ≤ t →
      t < TimelineSegmentIndex.windowEnd s ti i →
      (∀ j, j < i → ¬(TimelineSegmentIndex.windowStart s ti j ≤ t ∧
        t < TimelineSegmentIndex.windowEnd s ti j)) →
      TimelineSegmentIndex.find s t = some (i + s.numEvicted_)) := by
  refine ⟨?_, ?_, ?_, ?_⟩
  · intro hb
    simp [TimelineSegmentIndex.find, hb]
  · intro hb hnone
    simp [TimelineSegmentIndex.find, hb, hnone]
  · intro hb hout
    rcases hs : s.templateInfo_ with _ | ti
    · simp [TimelineSegmentIndex.find, hb, hs]
    · simp [TimelineSegmentIndex.find, hb, hs, hout]
  · intro ti i hs hb hout hi h1 h2 hj
    have hloop := findLoop_eq_some s.periodStart_ s.periodEnd_ s.numEvicted_ t
      (TimelineSegmentIndex.tsiTimeline ti) 0 i hi h1 h2
      (fun j hji => hj j hji)
    simp only [TimelineSegmentIndex.find, hb, hs, Bool.false_eq_true,
      if_false]
    rw [if_neg hout, hloop]
    congr 1
    omega

/-- C6 witness: the amended `find` semantics applied to the shifted
concrete index — a time before the period start returning the eviction
counter, a time beyond the period end returning nothing, and a time
11.5 inside entry 1's window returning position 1. -/
theorem C6_amended_witness :
    TimelineSegmentIndex.find exTsiShifted 5 = some exTsiShifted.numEvicted_ ∧
    TimelineSegmentIndex.find exTsiShifted 150 = none ∧
    TimelineSegmentIndex.find exTsiShifted (23/2) =
      some (1 + exTsiShifted.numEvicted_) := by
  refine ⟨?_, ?_, ?_⟩
  · exact (C6_amended_find_order exTsiShifted 5).1
      (by norm_num [TimelineSegmentIndex.isBeforeFirstEntry,
        TimelineSegmentIndex.tsiTimeline, exTsiShifted, exTsi, exInfoTsi])
  · exact (C6_amended_find_order exTsiShifted 150).2.2.1
      (by norm_num [TimelineSegmentIndex.isBeforeFirstEntry,
        TimelineSegmentIndex.tsiTimeline, exTsiShifted, exTsi, exInfoTsi])
      (Or.inr (by norm_num [QInf.geB, exTsiShifted, exTsi]))
  · refine (C6_amended_find_order exTsiShifted (23/2)).2.2.2 exInfoTsi 1
      rfl
      (by norm_num [TimelineSegmentIndex.isBeforeFirstEntry,
        TimelineSegmentIndex.tsiTimeline, exTsiShifted, exTsi, exInfoTsi])
      (by push_neg
          constructor
          · norm_num [exTsiShifted, exTsi]
          · norm_num [QInf.geB, exTsiShifted, exTsi])
      (by norm_num [TimelineSegmentIndex.tsiTimeline, exInfoTsi])
      (by norm_num [TimelineSegmentIndex.windowStart,
        TimelineSegmentIndex.wStartL, TimelineSegmentIndex.tsiTimeline,
        exTsiShifted, exTsi, exInfoTsi])
      (by norm_num [TimelineSegmentIndex.windowEnd,
        TimelineSegmentIndex.wEndL, TimelineSegmentIndex.tsiTimeline,
        exTsiShifted, exTsi, exInfoTsi])
      ?_
    intro j hj
    interval_cases j
    rw [not_and_or]
    right
    norm_num [TimelineSegmentIndex.windowEnd, TimelineSegmentIndex.wEndL,
      TimelineSegmentIndex.tsiTimeline, exTsiShifted, exTsi, exInfoTsi]

/-- Reading a dropped cache at a shifted index reads the original cache. -/
theorem getD_drop_shift (l : List (Option SegRef)) (k i : ℕ) :
    (l.drop k).getD i none = l.getD (k + i) none := by
  simp [List.getD, List.getElem?_drop]

/-- Reading a dropped timeline at a shifted index reads the original. -/
theorem getD_drop_shift_tr (l : List TimeRange) (k i : ℕ) :
    (l.drop k).getD i default = l.getD (k + i) default := by
  simp [List.getD, List.getElem?_drop]

/-- An eviction never drops more entries than the timeline holds. -/
theorem evictCount_le (s : TimelineSegmentIndex) (ti : SegmentTemplateInfo)
    (h : s.templateInfo_ = some ti) (t : ℚ) :
    TimelineSegmentIndex.evictCount s t ≤
      (TimelineSegmentIndex.tsiTimeline ti).length := by
  simp only [TimelineSegmentIndex.evictCount, h]
  generalize TimelineSegmentIndex.tsiTimeline ti = l
  induction l with
  | nil => simp [List.takeWhile]
  | cons a l ih =>
    simp only [List.takeWhile]
    cases decide (a.end_ + s.periodStart_ ≤ t) <;> simp
    omega


/-- Materializing the reference at corrected position `c - k` after the
leading `k` timeline entries were dropped builds the same reference the
undropped index builds at corrected position `c`. -/
theorem buildRef_shift (s : TimelineSegmentIndex) (ti : SegmentTemplateInfo)
    (h : s.templateInfo_ = some ti) (rfs : List (Option SegRef)) (k c : ℕ)
    (hk : k ≤ c) (hc : c < (TimelineSegmentIndex.tsiTimeline ti).length) :
    TimelineSegmentIndex.buildRef
      { s with
        templateInfo_ := some { ti with
          timeline := some ((TimelineSegmentIndex.tsiTimeline ti).drop k) }
        references := rfs
        numEvicted_ := s.numEvicted_ + k }
      { ti with
        timeline := some ((TimelineSegmentIndex.tsiTimeline ti).drop k) }
      (c - k) =
    TimelineSegmentIndex.buildRef s ti c := by
  have htl : TimelineSegmentIndex.tsiTimeline
      { ti with timeline := some ((TimelineSegmentIndex.tsiTimeline ti).drop k) } =
      (TimelineSegmentIndex.tsiTimeline ti).drop k := rfl
  have hrange : ((TimelineSegmentIndex.tsiTimeline ti).drop k).getD (c - k) default
      = (TimelineSegmentIndex.tsiTimeline ti).getD c default := by
    rw [getD_drop_shift_tr]
    congr 1
    omega
  have hnum : TimelineSegmentIndex.getNumReferences
      { s with
        templateInfo_ := some { ti with
          timeline := some ((TimelineSegmentIndex.tsiTimeline ti).drop k) }
        references := rfs
        numEvicted_ := s.numEvicted_ + k } =
      (TimelineSegmentIndex.tsiTimeline ti).length - k := by
    simp [TimelineSegmentIndex.getNumReferences, htl]
  have hnums : TimelineSegmentIndex.getNumReferences s =
      (TimelineSegmentIndex.tsiTimeline ti).length := by
    simp [TimelineSegmentIndex.getNumReferences, h]
  have hcond : (c - k = (TimelineSegmentIndex.tsiTimeline ti).length - k - 1)
      ↔ (c = (TimelineSegmentIndex.tsiTimeline ti).length - 1) := by omega
  unfold TimelineSegmentIndex.buildRef
  rw [htl, hrange, hnum, hnums]
  simp only [hcond]

/-- `get(p)` is unchanged by dropping `k` leading timeline entries
together with advancing the eviction counter by `k`, provided the
materialized cache either extends at least `k` slots (so it is dropped in
step) or is empty. -/
theorem get_fst_shift (s : TimelineSegmentIndex) (ti : SegmentTemplateInfo)
    (h : s.templateInfo_ = some ti) (k : ℕ)
    (hcache : k ≤ s.references.length ∨ s.references = [])
    (p : ℕ) (hp : s.numEvicted_ + k ≤ p) :
    (TimelineSegmentIndex.get
      { s with
        templateInfo_ := some { ti with
          timeline := some ((TimelineSegmentIndex.tsiTimeline ti).drop k) }
        references := if s.references.length ≥ k then s.references.drop k
          else s.references
        numEvicted_ := s.numEvicted_ + k } p).1 =
    (TimelineSegmentIndex.get s p).1 := by
  have hrefs : (if s.references.length ≥ k then s.references.drop k
      else s.references) = s.references.drop k := by
    rcases hcache with hc | hc
    · rw [if_pos hc]
    · rcases le_or_lt k s.references.length with h2 | h2
      · rw [if_pos h2]
      · rw [if_neg (by omega), hc, List.drop_nil]
  have htl : TimelineSegmentIndex.tsiTimeline
      { ti with timeline := some ((TimelineSegmentIndex.tsiTimeline ti).drop k) } =
      (TimelineSegmentIndex.tsiTimeline ti).drop k := rfl
  have hnum : TimelineSegmentIndex.getNumReferences
      { s with
        templateInfo_ := some { ti with
          timeline := some ((TimelineSegmentIndex.tsiTimeline ti).drop k) }
        references := s.references.drop k
        numEvicted_ := s.numEvicted_ + k } =
      (TimelineSegmentIndex.tsiTimeline ti).length - k := by
    simp [TimelineSegmentIndex.getNumReferences, htl]
  have hnums : TimelineSegmentIndex.getNumReferences s =
      (TimelineSegmentIndex.tsiTimeline ti).length := by
    simp [TimelineSegmentIndex.getNumReferences, h]
  simp only [TimelineSegmentIndex.get, h, hrefs]
  simp only [hnum, hnums]
  rw [if_neg (by omega : ¬ p < s.numEvicted_ + k),
    if_neg (by omega : ¬ p < s.numEvicted_)]
  by_cases hin : p - s.numEvicted_ < (TimelineSegmentIndex.tsiTimeline ti).length
  · rw [if_neg (by omega), if_neg (by omega)]
    have hcc : (s.references.drop k).getD (p - (s.numEvicted_ + k)) none =
        s.references.getD (p - s.numEvicted_) none := by
      rw [getD_drop_shift]
      congr 1
      omega
    rw [hcc]
    rcases hv : s.references.getD (p - s.numEvicted_) none with _ | r
    · simp only []
      have hb := buildRef_shift s ti h
        (if s.references.length ≥ k then s.references.drop k else s.references)
        k (p - s.numEvicted_) (by omega) hin
      rw [hrefs] at hb
      have hidx : p - (s.numEvicted_ + k) = p - s.numEvicted_ - k := by omega
      rw [hidx, hb]
    · simp
  · rw [if_pos (by omega), if_pos (by omega)]

/-- C2 amended: after `evict(t)`, with k the number of leading timeline
entries whose end + periodStart is at most t: `numEvicted_` advances by
exactly k; the cache is dropped by k only when it already extends at
least k slots, otherwise it is left untouched; when no entries remain the
index is released; and `get(p)` for p at or above old `numEvicted_` + k
returns the same reference as before eviction provided the materialized
cache extended at least k slots or was empty (the counterexample shows it
can change otherwise). -/
theorem C2_amended_evict_semantics (s : TimelineSegmentIndex)
    (ti : SegmentTemplateInfo) (h : s.templateInfo_ = some ti) (t : ℚ) :
    (TimelineSegmentIndex.evict s t).numEvicted_ =
      s.numEvicted_ + TimelineSegmentIndex.evictCount s t ∧
    (TimelineSegmentIndex.evictCount s t ≤ s.references.length →
      (TimelineSegmentIndex.evict s t).references =
        s.references.drop (TimelineSegmentIndex.evictCount s t)) ∧
    (s.references.length < TimelineSegmentIndex.evictCount s t →
      (TimelineSegmentIndex.evict s t).references = s.references) ∧
    (0 < TimelineSegmentIndex.evictCount s t →
      TimelineSegmentIndex.evictCount s t =
        (TimelineSegmentIndex.tsiTimeline ti).length →
      (TimelineSegmentIndex.evict s t).templateInfo_ = none) ∧
    ((TimelineSegmentIndex.evictCount s t ≤ s.references.length ∨
        s.references = []) →
      ∀ p, s.numEvicted_ + TimelineSegmentIndex.evictCount s t ≤ p →
        (TimelineSegmentIndex.get (TimelineSegmentIndex.evict s t) p).1 =
          (TimelineSegmentIndex.get s p).1) := by
  have hkle := evictCount_le s ti h t
  by_cases hk0 : 0 < TimelineSegmentIndex.evictCount s t
  case neg =>
    have hkz : TimelineSegmentIndex.evictCount s t = 0 := by omega
    have hev : TimelineSegmentIndex.evict s t = s := by
      simp only [TimelineSegmentIndex.evict, h]
      rw [if_neg hk0]
    refine ⟨by rw [hev]; omega, ?_, ?_, ?_, ?_⟩
    · intro _
      rw [hev, hkz, List.drop_zero]
    · intro hlt
      omega
    · intro h0
      exact absurd h0 hk0
    · intro _ p _
      rw [hev]
  case pos =>
    have hnum1 : TimelineSegmentIndex.getNumReferences
        { s with
          templateInfo_ := some { ti with
            timeline := some ((TimelineSegmentIndex.tsiTimeline ti).drop
              (TimelineSegmentIndex.evictCount s t)) }
          references := if s.references.length ≥
              TimelineSegmentIndex.evictCount s t then
              s.references.drop (TimelineSegmentIndex.evictCount s t)
            else s.references
          numEvicted_ := s.numEvicted_ + TimelineSegmentIndex.evictCount s t } =
        (TimelineSegmentIndex.tsiTimeline ti).length -
          TimelineSegmentIndex.evictCount s t := by
      simp [TimelineSegmentIndex.getNumReferences,
        TimelineSegmentIndex.tsiTimeline]
    have hev : TimelineSegmentIndex.evict s t =
        if (TimelineSegmentIndex.tsiTimeline ti).length -
            TimelineSegmentIndex.evictCount s t = 0 then
          TimelineSegmentIndex.release
            { s with
              templateInfo_ := some { ti with
                timeline := some ((TimelineSegmentIndex.tsiTimeline ti).drop
                  (TimelineSegmentIndex.evictCount s t)) }
              references := if s.references.length ≥
                  TimelineSegmentIndex.evictCount s t then
                  s.references.drop (TimelineSegmentIndex.evictCount s t)
                else s.references
              numEvicted_ := s.numEvicted_ +
                TimelineSegmentIndex.evictCount s t }
        else
          { s with
            templateInfo_ := some { ti with
              timeline := some ((TimelineSegmentIndex.tsiTimeline ti).drop
                (TimelineSegmentIndex.evictCount s t)) }
            references := if s.references.length ≥
                TimelineSegmentIndex.evictCount s t then
                s.references.drop (TimelineSegmentIndex.evictCount s t)
              else s.references
            numEvicted_ := s.numEvicted_ +
              TimelineSegmentIndex.evictCount s t } := by
      simp only [TimelineSegmentIndex.evict, h]
      rw [if_pos hk0, hnum1]
    by_cases hz : (TimelineSegmentIndex.tsiTimeline ti).length -
        TimelineSegmentIndex.evictCount s t = 0
    · rw [hev, if_pos hz]
      refine ⟨by simp [TimelineSegmentIndex.release], ?_, ?_, ?_, ?_⟩
      · intro hle
        simp [TimelineSegmentIndex.release, if_pos hle]
      · intro hlt
        simp [TimelineSegmentIndex.release]
        intro hc
        omega
      · intro _ _
        simp [TimelineSegmentIndex.release]
      · intro _ p hp
        have hleft : (TimelineSegmentIndex.get (TimelineSegmentIndex.release
            { s with
              templateInfo_ := some { ti with
                timeline := some ((TimelineSegmentIndex.tsiTimeline ti).drop
                  (TimelineSegmentIndex.evictCount s t)) }
              references := if s.references.length ≥
                  TimelineSegmentIndex.evictCount s t then
                  s.references.drop (TimelineSegmentIndex.evictCount s t)
                else s.references
              numEvicted_ := s.numEvicted_ +
                TimelineSegmentIndex.evictCount s t }) p).1 = none := by
          simp [TimelineSegmentIndex.get, TimelineSegmentIndex.release]
        have hright : (TimelineSegmentIndex.get s p).1 = none := by
          simp only [TimelineSegmentIndex.get, h]
          rw [if_neg (by omega : ¬ p < s.numEvicted_)]
          rw [if_pos ?_]
          have hnums : TimelineSegmentIndex.getNumReferences s =
              (TimelineSegmentIndex.tsiTimeline ti).length := by
            simp [TimelineSegmentIndex.getNumReferences, h]
          rw [hnums]
          omega
        rw [hleft, hright]
    · rw [hev, if_neg hz]
      refine ⟨by simp, ?_, ?_, ?_, ?_⟩
      · intro hle
        simp only []
        rw [if_pos hle]
      · intro hlt
        simp only []
        rw [if_neg (by omega)]
      · intro _ hkeq
        omega
      · intro hcache p hp
        exact get_fst_shift s ti h (TimelineSegmentIndex.evictCount s t)
          hcache p hp

/-- C2 witness: the amended eviction semantics applied to the concrete
states — the counter advance on the cached state, and position stability
on the cache-free state. -/
theorem C2_amended_witness :
    (TimelineSegmentIndex.evict sEx1 3).numEvicted_ =
      sEx1.numEvicted_ + TimelineSegmentIndex.evictCount sEx1 3 ∧
    (TimelineSegmentIndex.get (TimelineSegmentIndex.evict exTsi 3) 5).1 =
      (TimelineSegmentIndex.get exTsi 5).1 := by
  constructor
  · exact (C2_amended_evict_semantics sEx1 exInfoTsi rfl 3).1
  · refine (C2_amended_evict_semantics exTsi exInfoTsi rfl 3).2.2.2.2
      (Or.inr rfl) 5 ?_
    have hk : TimelineSegmentIndex.evictCount exTsi 3 = 3 := by
      norm_num [TimelineSegmentIndex.evictCount,
        TimelineSegmentIndex.tsiTimeline, exTsi, exInfoTsi, List.takeWhile]
    rw [hk]
    norm_num [exTsi]

/-- `Math.ceil` of a positive integer ratio is positive. -/
theorem ceilDiv_pos (a : ℤ) (b : ℕ) (ha : 0 < a) (hb : b ≠ 0) :
    0 < MpdUtils.ceilDiv a b := by
  unfold MpdUtils.ceilDiv
  rw [Int.ceil_pos]
  apply div_pos
  · exact_mod_cast ha
  · exact_mod_cast Nat.pos_of_ne_zero hb

/-- A resolved repeat count is never negative: the source's guards make
the negative-`r` expansions yield at least one repetition. -/
theorem resolveRepeat_nonneg (ts : ℕ) (pd : QInf) (d : ℕ) (st r0 : ℤ)
    (next : Option SEntry) (rep : ℤ) (hd : d ≠ 0) (hts : 0 < ts)
    (h : MpdUtils.resolveRepeat ts pd d st r0 next = some rep) : 0 ≤ rep := by
  unfold MpdUtils.resolveRepeat at h
  by_cases hr0 : r0 < 0
  · rw [if_pos hr0] at h
    rcases next with _ | nx
    · dsimp only at h
      rcases pd with pdq | _
      · dsimp only at h
        by_cases hge : (st : ℚ) / (ts : ℚ) ≥ pdq
        · simp [hge] at h
        · simp only [hge, if_false] at h
          injection h with h'
          push_neg at hge
          rw [div_lt_iff₀ (by exact_mod_cast hts : (0 : ℚ) < (ts : ℚ))] at hge
          have hpos : 0 < ⌈(pdq * (ts : ℚ) - (st : ℚ)) / (d : ℚ)⌉ := by
            rw [Int.ceil_pos]
            apply div_pos (by linarith)
            exact_mod_cast Nat.pos_of_ne_zero hd
          omega
      · simp at h
    · dsimp only at h
      rcases hnt : nx.t with _ | nst
      · simp [hnt] at h
      · rw [hnt] at h
        dsimp only at h
        by_cases hge : st ≥ (nst : ℤ)
        · simp [hge] at h
        · simp only [hge, if_false] at h
          injection h with h'
          have hpos := ceilDiv_pos ((nst : ℤ) - st) d (by omega) hd
          omega
  · rw [if_neg hr0] at h
    injection h with h'
    omega

/-- Patching the last entry's end preserves the length. -/
theorem setLastEnd_length (v : ℚ) : ∀ l : List TimeRange,
    (MpdUtils.setLastEnd l v).length = l.length := by
  intro l
  induction l with
  | nil => rfl
  | cons x xs ih =>
    cases xs with
    | nil => rfl
    | cons y ys =>
      simp only [MpdUtils.setLastEnd, List.length_cons] at ih ⊢
      omega

/-- Patching the last entry's end leaves the head's start and position. -/
theorem setLastEnd_head (v : ℚ) (y : TimeRange) (ys : List TimeRange) :
    ∃ h' t', MpdUtils.setLastEnd (y :: ys) v = h' :: t' ∧
      h'.start = y.start ∧ h'.segmentPosition = y.segmentPosition := by
  cases ys with
  | nil => exact ⟨{ y with end_ := v }, [], rfl, rfl, rfl⟩
  | cons z zs => exact ⟨y, MpdUtils.setLastEnd (z :: zs) v, rfl, rfl, rfl⟩

/-- The last entry after the patch is the old last entry with its end
replaced. -/
theorem setLastEnd_getLast? (v : ℚ) : ∀ l : List TimeRange,
    (MpdUtils.setLastEnd l v).getLast? =
      l.getLast?.map (fun r => { r with end_ := v }) := by
  intro l
  induction l with
  | nil => rfl
  | cons x xs ih =>
    cases xs with
    | nil => rfl
    | cons y ys =>
      show (x :: MpdUtils.setLastEnd (y :: ys) v).getLast? = _
      obtain ⟨h', t', heq, -, -⟩ := setLastEnd_head v y ys
      rw [heq, List.getLast?_cons_cons, ← heq, ih, List.getLast?_cons_cons]

/-- Patching the last entry's end preserves contiguity (no pair involves
the last entry's end). -/
theorem setLastEnd_chain (v : ℚ) : ∀ l : List TimeRange,
    List.Chain' (fun a b => a.end_ = b.start) l →
    List.Chain' (fun a b => a.end_ = b.start) (MpdUtils.setLastEnd l v) := by
  intro l
  induction l with
  | nil => intro h; exact h
  | cons x xs ih =>
    cases xs with
    | nil => intro _; simp [MpdUtils.setLastEnd]
    | cons y ys =>
      intro hch
      rw [List.chain'_cons] at hch
      show List.Chain' _ (x :: MpdUtils.setLastEnd (y :: ys) v)
      obtain ⟨h', t', heq, hstart, -⟩ := setLastEnd_head v y ys
      rw [heq, List.chain'_cons]
      constructor
      · rw [hstart]
        exact hch.1
      · rw [← heq]
        exact ih hch.2

/-- Patching the last entry's end preserves every segment position. -/
theorem setLastEnd_positions (v : ℚ) : ∀ (l : List TimeRange) (i : ℕ),
    ((MpdUtils.setLastEnd l v).getD i default).segmentPosition =
      (l.getD i default).segmentPosition := by
  intro l
  induction l with
  | nil => intro i; rfl
  | cons x xs ih =>
    intro i
    cases xs with
    | nil =>
      cases i with
      | zero => rfl
      | succ j => rfl
    | cons y ys =>
      cases i with
      | zero => rfl
      | succ j =>
        show ((MpdUtils.setLastEnd (y :: ys) v).getD j default).segmentPosition = _
        exact ih j

/-- The repetition loop preserves the timeline invariant: contiguity, the
last end tracking the running unscaled time, and positions equal to index
plus start number. -/
theorem pushRepeats_inv (d ts : ℕ) (k sn : ℤ) :
    ∀ (cnt : ℕ) (st : ℤ) (acc : List TimeRange),
    List.Chain' (fun a b => a.end_ = b.start) acc →
    (∀ r ∈ acc.getLast?, r.end_ = (st : ℚ) / (ts : ℚ)) →
    (∀ i, i < acc.length →
      (acc.getD i default).segmentPosition = (i : ℤ) + sn) →
    List.Chain' (fun a b => a.end_ = b.start)
      (MpdUtils.pushRepeats cnt st d ts k sn acc).1 ∧
    (∀ r ∈ (MpdUtils.pushRepeats cnt st d ts k sn acc).1.getLast?,
      r.end_ = ((MpdUtils.pushRepeats cnt st d ts k sn acc).2 : ℚ) / (ts : ℚ)) ∧
    (∀ i, i < (MpdUtils.pushRepeats cnt st d ts k sn acc).1.length →
      ((MpdUtils.pushRepeats cnt st d ts k sn acc).1.getD i
        default).segmentPosition = (i : ℤ) + sn) := by
  intro cnt
  induction cnt with
  | zero =>
    intro st acc hch hlast hpos
    exact ⟨hch, hlast, hpos⟩
  | succ n ih =>
    intro st acc hch hlast hpos
    show List.Chain' _ (MpdUtils.pushRepeats n (st + (d : ℤ)) d ts k sn
      (acc ++ [_])).1 ∧ _
    refine ih (st + (d : ℤ)) (acc ++ [_]) ?_ ?_ ?_
    · rw [List.chain'_append]
      refine ⟨hch, List.chain'_singleton _, ?_⟩
      intro x hx y hy
      simp only [List.head?_cons, Option.mem_def, Option.some.injEq] at hy
      subst hy
      exact hlast x hx
    · intro r hr
      rw [List.getLast?_concat] at hr
      simp only [Option.mem_def, Option.some.injEq] at hr
      subst hr
      rfl
    · intro i hi
      rw [List.length_append, List.length_cons, List.length_nil] at hi
      rcases lt_or_eq_of_le (Nat.lt_succ_iff.mp hi) with hlt | heq
      · rw [List.getD_append _ _ _ _ hlt]
        exact hpos i hlt
      · subst heq
        rw [List.getD_eq_getElem _ _ (by simp), List.getElem_append_right
          (by omega)]
        simp

/-- The main `createTimeline` loop preserves contiguity and the
index-plus-startNumber position law. -/
theorem createTimelineLoop_inv (ts : ℕ) (hts : 0 < ts) (uPTO : ℤ)
    (pd : QInf) (sn : ℤ) :
    ∀ (pts : List SEntry) (lastEndTime : ℤ) (acc : List TimeRange),
    List.Chain' (fun a b => a.end_ = b.start) acc →
    (∀ r ∈ acc.getLast?, r.end_ = (lastEndTime : ℚ) / (ts : ℚ)) →
    (∀ i, i < acc.length →
      (acc.getD i default).segmentPosition = (i : ℤ) + sn) →
    List.Chain' (fun a b => a.end_ = b.start)
      (MpdUtils.createTimelineLoop ts uPTO pd sn pts lastEndTime acc) ∧
    (∀ i, i <
        (MpdUtils.createTimelineLoop ts uPTO pd sn pts lastEndTime acc).length →
      ((MpdUtils.createTimelineLoop ts uPTO pd sn pts lastEndTime
        acc).getD i default).segmentPosition = (i : ℤ) + sn) := by
  intro pts
  induction pts with
  | nil =>
    intro le acc h1 h2 h3
    exact ⟨h1, h3⟩
  | cons tp rest ih =>
    intro le acc h1 h2 h3
    rw [MpdUtils.createTimelineLoop]
    rcases htd : tp.d with _ | d
    · exact ⟨h1, h3⟩
    · by_cases hd0 : d = 0
      · simp only [if_pos hd0]
        exact ⟨h1, h3⟩
      · simp only [if_neg hd0]
        split
        · exact ⟨h1, h3⟩
        · rename_i rep heq
          have hrep : 0 ≤ rep :=
            resolveRepeat_nonneg ts pd d _ _ _ rep hd0 hts heq
          have hcnt : (rep + 1).toNat ≠ 0 := by omega
          rw [if_neg hcnt]
          set st : ℤ := ((tp.t.map fun x => (x : ℤ) - uPTO)).getD le with hst
          have hacc1 : List.Chain' (fun a b => a.end_ = b.start)
              (if acc ≠ [] ∧ st ≠ le then
                MpdUtils.setLastEnd acc ((st : ℚ) / (ts : ℚ)) else acc) ∧
              (∀ r ∈ (if acc ≠ [] ∧ st ≠ le then
                MpdUtils.setLastEnd acc ((st : ℚ) / (ts : ℚ)) else acc).getLast?,
                r.end_ = (st : ℚ) / (ts : ℚ)) ∧
              (∀ i, i < (if acc ≠ [] ∧ st ≠ le then
                MpdUtils.setLastEnd acc ((st : ℚ) / (ts : ℚ)) else acc).length →
                ((if acc ≠ [] ∧ st ≠ le then
                  MpdUtils.setLastEnd acc ((st : ℚ) / (ts : ℚ)) else acc).getD i
                    default).segmentPosition = (i : ℤ) + sn) := by
            by_cases hcondp : acc ≠ [] ∧ st ≠ le
            · rw [if_pos hcondp]
              refine ⟨setLastEnd_chain _ acc h1, ?_, ?_⟩
              · intro r hr
                rw [setLastEnd_getLast?] at hr
                rcases hacc : acc.getLast? with _ | r0
                · rw [hacc] at hr
                  simp at hr
                · rw [hacc] at hr
                  have hrr : { r0 with end_ := (st : ℚ) / (ts : ℚ) } = r := by
                    simpa using hr
                  rw [← hrr]
              · intro i hi
                rw [setLastEnd_positions]
                exact h3 i (by rwa [setLastEnd_length] at hi)
            · rw [if_neg hcondp]
              refine ⟨h1, ?_, h3⟩
              push_neg at hcondp
              rcases hacc : acc.getLast? with _ | r0
              · intro r hr
                simp at hr
              · intro r hr
                have hrr : r0 = r := by simpa using hr
                subst hrr
                have hne : acc ≠ [] := by
                  intro hc
                  rw [hc] at hacc
                  simp at hacc
                rw [hcondp hne]
                exact h2 _ hacc
          have hpush := pushRepeats_inv d ts (tp.k.getD 0) sn (rep + 1).toNat
            st _ hacc1.1 hacc1.2.1 hacc1.2.2
          exact ih _ _ hpush.1 hpush.2.1 hpush.2.2

/-- C1: every timeline produced by `createTimeline` is contiguous — each
entry's end equals the next entry's start — and its segmentPosition
fields are exactly index + startNumber (hence strictly increasing). -/
theorem C1_createTimeline_contiguous (pts : List SEntry) (ts : ℕ)
    (uPTO : ℤ) (pd : QInf) (sn : ℤ) (hts : 0 < ts) :
    (∀ i, i + 1 < (MpdUtils.createTimeline pts ts uPTO pd sn).length →
      ((MpdUtils.createTimeline pts ts uPTO pd sn).getD i default).end_ =
        ((MpdUtils.createTimeline pts ts uPTO pd sn).getD (i + 1)
          default).start) ∧
    (∀ i, i < (MpdUtils.createTimeline pts ts uPTO pd sn).length →
      ((MpdUtils.createTimeline pts ts uPTO pd sn).getD i
        default).segmentPosition = (i : ℤ) + sn) := by
  have h := createTimelineLoop_inv ts hts uPTO pd sn pts (-uPTO) []
    List.chain'_nil (by simp) (by simp)
  have hfold : MpdUtils.createTimelineLoop ts uPTO pd sn pts (-uPTO) [] =
      MpdUtils.createTimeline pts ts uPTO pd sn := rfl
  rw [hfold] at h
  constructor
  · intro i hi
    have hch := h.1
    rw [List.chain'_iff_get] at hch
    have hstep := hch i (by omega)
    rw [List.getD_eq_getElem _ _ (by omega), List.getD_eq_getElem _ _ hi]
    exact hstep
  · intro i hi
    exact h.2 i hi

/-- C1 witness: contiguity and the position law instantiated on a
two-entry timeline with a repeat. -/
theorem C1_witness_concrete :
    ((MpdUtils.createTimeline [⟨some 0, some 2, some 1, none⟩,
        ⟨none, some 3, none, none⟩] 1 0 (.fin 100) 1).getD 0 default).end_ =
      ((MpdUtils.createTimeline [⟨some 0, some 2, some 1, none⟩,
        ⟨none, some 3, none, none⟩] 1 0 (.fin 100) 1).getD 1 default).start ∧
    ((MpdUtils.createTimeline [⟨some 0, some 2, some 1, none⟩,
        ⟨none, some 3, none, none⟩] 1 0 (.fin 100) 1).getD 2
          default).segmentPosition = (2 : ℤ) + 1 := by
  have h := C1_createTimeline_contiguous [⟨some 0, some 2, some 1, none⟩,
    ⟨none, some 3, none, none⟩] 1 0 (.fin 100) 1 (by norm_num)
  have hlen : (MpdUtils.createTimeline [⟨some 0, some 2, some 1, none⟩,
      ⟨none, some 3, none, none⟩] 1 0 (.fin 100) 1).length = 3 := by
    norm_num [MpdUtils.createTimeline, MpdUtils.createTimelineLoop,
      MpdUtils.resolveRepeat, MpdUtils.pushRepeats]
  exact ⟨h.1 0 (by omega), h.2 2 (by omega)⟩
